import Mathlib

set_option maxHeartbeats 1600000

/-!
Verification development for the vm-compiler repository: a shallow embedding of
`src/vm_parser.rs` (parsing and label validation) and `src/vm_emitter.rs`
(lowering to assembly text), together with theorems settling the specification
claims.  Machine integers of the source (`usize` offsets, row/column counters)
are embedded as `Nat`; the fallible parser is embedded with `Except`; the
emitter's panic branches are embedded as `Option.none`.
-/

namespace VMCompiler

/-- A source position: 1-based row and column (struct `VMLocation` and lip's
`Location` in the source). -/
structure Loc where
  row : Nat
  col : Nat
  deriving DecidableEq, Repr

/-- A label occurrence: name together with the span it occupies
(struct `VMLocatedString` in `vm_parser.rs`). -/
structure VMLocatedString where
  frm : Loc
  toL : Loc
  value : String
  deriving DecidableEq, Repr

/-- Validation state threaded through the line pass: the set of declared label
names and the set of used label names, each with every occurrence's span
(struct `State` in `vm_parser.rs`; the `im` hash sets are embedded as
duplicate-free lists, insertion being a no-op on an already-present record). -/
structure State where
  definedLabels : List VMLocatedString
  usedLabels : List VMLocatedString
  deriving DecidableEq, Repr

/-- Arithmetic and logic mnemonics (enum `ArithInstruction`). -/
inductive ArithInstruction where
  | Add | Sub | Neg | Eq | Gt | Lt | And | Or | Not
  deriving DecidableEq, Repr

/-- Memory segments (enum `Segment`). -/
inductive Segment where
  | Local | Argument | This | That | Constant | Static | Temp | Pointer
  deriving DecidableEq, Repr

/-- Parsed instructions (enum `Instruction`). -/
inductive Instruction where
  | Arithmetic (op : ArithInstruction)
  | Push (segment : Segment) (offset : Nat)
  | Pop (segment : Segment) (offset : Nat)
  | Label (name : String)
  | Goto (name : String)
  | IfGoto (name : String)
  | Function (name : String) (localVars : Nat)
  | Return
  | Ignored
  deriving DecidableEq, Repr

/-- A diagnostic produced while parsing: message and offending span
(the payload of lip's `ParseResult::Err`). -/
structure LineErr where
  message : String
  frm : Loc
  toL : Loc
  deriving DecidableEq, Repr

/-- Set insertion on the list embedding of `im::HashSet` (`update` keeps a set
free of duplicates; inserting a present element leaves the set unchanged). -/
def updateSet (x : VMLocatedString) (s : List VMLocatedString) : List VMLocatedString :=
  if x ∈ s then s else x :: s

/-- Literal token match (lip's `token`): consume exactly the pattern or fail
consuming nothing. -/
def dropLit : List Char → List Char → Option (List Char)
  | [], s => some s
  | _ :: _, [] => none
  | p :: ps, c :: cs => if c = p then dropLit ps cs else none

/-- Count and drop leading spaces (lip's `space0`/`space1` chomping). -/
def countSpaces : List Char → Nat × List Char
  | ' ' :: rest =>
    let r := countSpaces rest
    (r.1 + 1, r.2)
  | s => (0, s)

/-- Take the longest run of decimal digits (the chomping done by lip's `int`). -/
def takeDigits : List Char → List Char × List Char
  | [] => ([], [])
  | c :: cs =>
    if c.isDigit then
      let r := takeDigits cs
      (c :: r.1, r.2)
    else ([], c :: cs)

/-- Decimal value of a digit run. -/
def digitsToNat (ds : List Char) : Nat :=
  ds.foldl (fun acc c => acc * 10 + (c.toNat - 48)) 0

/-- Characters allowed after the first character of a label: alphanumeric or
one of `_`, `.`, `$` (the predicates passed to lip's `variable` in `label()`). -/
def isLabelChar (c : Char) : Bool :=
  c.isAlphanum || c = '_' || c = '.' || c = '$'

/-- Take the longest run of label-continuation characters. -/
def takeLabelBody : List Char → List Char × List Char
  | [] => ([], [])
  | c :: cs =>
    if isLabelChar c then
      let r := takeLabelBody cs
      (c :: r.1, r.2)
    else ([], c :: cs)

/-- Segment keyword recognition (`segment_label()` in the source), trying the
eight keywords in source order; returns the segment, its keyword length and
the rest of the line. -/
def takeSegment (s : List Char) : Option (Segment × Nat × List Char) :=
  match dropLit "local".data s with
  | some r => some (Segment.Local, 5, r)
  | none =>
  match dropLit "argument".data s with
  | some r => some (Segment.Argument, 8, r)
  | none =>
  match dropLit "this".data s with
  | some r => some (Segment.This, 4, r)
  | none =>
  match dropLit "that".data s with
  | some r => some (Segment.That, 4, r)
  | none =>
  match dropLit "constant".data s with
  | some r => some (Segment.Constant, 8, r)
  | none =>
  match dropLit "static".data s with
  | some r => some (Segment.Static, 6, r)
  | none =>
  match dropLit "temp".data s with
  | some r => some (Segment.Temp, 4, r)
  | none =>
  match dropLit "pointer".data s with
  | some r => some (Segment.Pointer, 7, r)
  | none => none

/-- Arithmetic mnemonic recognition (`arith_instruction()`), in source order. -/
def takeArith (s : List Char) : Option (ArithInstruction × Nat × List Char) :=
  match dropLit "add".data s with
  | some r => some (ArithInstruction.Add, 3, r)
  | none =>
  match dropLit "sub".data s with
  | some r => some (ArithInstruction.Sub, 3, r)
  | none =>
  match dropLit "neg".data s with
  | some r => some (ArithInstruction.Neg, 3, r)
  | none =>
  match dropLit "eq".data s with
  | some r => some (ArithInstruction.Eq, 2, r)
  | none =>
  match dropLit "gt".data s with
  | some r => some (ArithInstruction.Gt, 2, r)
  | none =>
  match dropLit "lt".data s with
  | some r => some (ArithInstruction.Lt, 2, r)
  | none =>
  match dropLit "and".data s with
  | some r => some (ArithInstruction.And, 3, r)
  | none =>
  match dropLit "or".data s with
  | some r => some (ArithInstruction.Or, 2, r)
  | none =>
  match dropLit "not".data s with
  | some r => some (ArithInstruction.Not, 3, r)
  | none => none

/-- Diagnostic for `pop constant <n>` (format string in `pop_instruction`). -/
def popConstantMessage (offset : Nat) : String :=
  "You can't store a popped value into a constant.\nTry pushing a constant onto the stack using `push constant " ++ Nat.repr offset ++ "` or consider push/pop other memory segments like `local` and `argument`."

/-- Diagnostic for `pop pointer <n>` with `n > 1` (format string in
`pop_instruction`). -/
def pointerRangeMessage (offset : Nat) : String :=
  "I found that " ++ Nat.repr offset ++ " is outside the allowed range of pointers.\nYou can only push/pop pointer 0 or 1. Pointer 0 refers to `this` and pointer 1 refers to `that`."

/-- Diagnostic for a duplicated `label`/`function` name (format string in
`label_declaration` and `function_declaration`). -/
def duplicateLabelMessage (name : String) : String :=
  "I found a duplicated label name `" ++ name ++ "`. Try renaming it."

/-- Diagnostic for an undefined label usage (format string in `parse`). -/
def undefinedLabelMessage (name : String) : String :=
  "I found an undefined label named " ++ name ++ ". Try removing it or define it somewhere."

/-- Modelled from the spec: placeholder text of a lip-internal syntax
diagnostic ("malformed-line syntax error"); the source delegates these
messages to the lip library, which is not part of this repository. -/
def expectingMoreMessage : String :=
  "I'm expecting more input on this line."

/-- Modelled from the spec: lip-internal diagnostic for a line that carries
trailing text where a newline (or trailing comment) is required. -/
def expectingNewlineMessage : String :=
  "I'm expecting a newline."

/-- Modelled from the spec: lip-internal diagnostic for an empty source file
(`one_or_more` requires at least one line). -/
def emptySourceMessage : String :=
  "I'm expecting at least one instruction line."

/-- Modelled from the spec: sentinel for the fuel-exhaustion branch of the
line loop; the fuel passed by `parse` always exceeds the line count, so this
diagnostic is unreachable. -/
def outOfFuelMessage : String :=
  "Internal: line loop ran out of fuel."

/-- Finish one line after its instruction: spaces, then either end of line or
a trailing `//` comment (lip's `newline_with_comment`, minus the newline
character itself which the line loop consumes). -/
def finishLine (row col : Nat) (rest : List Char) (ins : Instruction) (st : State) :
    Except LineErr (Instruction × State) :=
  let sp := countSpaces rest
  match sp.2 with
  | [] => .ok (ins, st)
  | '/' :: '/' :: _ => .ok (ins, st)
  | _ => .error ⟨expectingNewlineMessage, ⟨row, col + sp.1⟩, ⟨row, col + sp.1⟩⟩

/-- Rest of a `push` line after the `push` keyword (`push_instruction`):
spaces, segment, spaces, offset.  No semantic check is performed here — in
particular no pointer-range check. -/
def pushRest (row : Nat) (r1 : List Char) (st : State) : Except LineErr (Instruction × State) :=
  let sp := countSpaces r1
  if sp.1 = 0 then .error ⟨expectingMoreMessage, ⟨row, 5⟩, ⟨row, 5⟩⟩ else
  match takeSegment sp.2 with
  | none => .error ⟨expectingMoreMessage, ⟨row, 5 + sp.1⟩, ⟨row, 5 + sp.1⟩⟩
  | some (seg, n, r2) =>
    let c2 := 5 + sp.1 + n
    let sp2 := countSpaces r2
    if sp2.1 = 0 then .error ⟨expectingMoreMessage, ⟨row, c2⟩, ⟨row, c2⟩⟩ else
    let dg := takeDigits sp2.2
    if dg.1.isEmpty then .error ⟨expectingMoreMessage, ⟨row, c2 + sp2.1⟩, ⟨row, c2 + sp2.1⟩⟩ else
    finishLine row (c2 + sp2.1 + dg.1.length) dg.2 (Instruction.Push seg (digitsToNat dg.1)) st

/-- Rest of a `pop` line after the `pop` keyword (`pop_instruction`): spaces,
segment, spaces, offset, then the two semantic checks of the source's
`and_then` closure — `pop constant` is rejected outright, and `pop pointer`
is rejected when the offset exceeds 1; both rejections span from column 1 to
the position after the offset, exactly as built in the source. -/
def popRest (row : Nat) (r1 : List Char) (st : State) : Except LineErr (Instruction × State) :=
  let sp := countSpaces r1
  if sp.1 = 0 then .error ⟨expectingMoreMessage, ⟨row, 4⟩, ⟨row, 4⟩⟩ else
  match takeSegment sp.2 with
  | none => .error ⟨expectingMoreMessage, ⟨row, 4 + sp.1⟩, ⟨row, 4 + sp.1⟩⟩
  | some (seg, n, r2) =>
    let c2 := 4 + sp.1 + n
    let sp2 := countSpaces r2
    if sp2.1 = 0 then .error ⟨expectingMoreMessage, ⟨row, c2⟩, ⟨row, c2⟩⟩ else
    let dg := takeDigits sp2.2
    if dg.1.isEmpty then .error ⟨expectingMoreMessage, ⟨row, c2 + sp2.1⟩, ⟨row, c2 + sp2.1⟩⟩ else
    let offset := digitsToNat dg.1
    let c3 := c2 + sp2.1 + dg.1.length
    match seg with
    | Segment.Constant => .error ⟨popConstantMessage offset, ⟨row, 1⟩, ⟨row, c3⟩⟩
    | Segment.Pointer =>
      if offset > 1 then .error ⟨pointerRangeMessage offset, ⟨row, 1⟩, ⟨row, c3⟩⟩
      else finishLine row c3 dg.2 (Instruction.Pop seg offset) st
    | _ => finishLine row c3 dg.2 (Instruction.Pop seg offset) st

/-- Rest of a `label` line (`label_declaration`): spaces, then a label; a name
already declared is rejected at this second declaration site, spanning the
name itself; otherwise the located name joins the defined-label set. -/
def labelRest (row : Nat) (r1 : List Char) (st : State) : Except LineErr (Instruction × State) :=
  let sp := countSpaces r1
  if sp.1 = 0 then .error ⟨expectingMoreMessage, ⟨row, 6⟩, ⟨row, 6⟩⟩ else
  let c1 := 6 + sp.1
  match sp.2 with
  | [] => .error ⟨expectingMoreMessage, ⟨row, c1⟩, ⟨row, c1⟩⟩
  | c :: cs =>
    if c.isAlpha then
      let body := takeLabelBody cs
      let name := String.mk (c :: body.1)
      let c2 := c1 + name.length
      if (st.definedLabels.map (fun l => l.value)).contains name then
        .error ⟨duplicateLabelMessage name, ⟨row, c2 - name.length⟩, ⟨row, c2⟩⟩
      else
        finishLine row c2 body.2 (Instruction.Label name)
          { st with definedLabels := updateSet ⟨⟨row, c1⟩, ⟨row, c2⟩, name⟩ st.definedLabels }
    else .error ⟨expectingMoreMessage, ⟨row, c1⟩, ⟨row, c1⟩⟩

/-- Rest of a `goto` line (`goto_instruction`): spaces, then a label; the
located name joins the used-label set. -/
def gotoRest (row : Nat) (r1 : List Char) (st : State) : Except LineErr (Instruction × State) :=
  let sp := countSpaces r1
  if sp.1 = 0 then .error ⟨expectingMoreMessage, ⟨row, 5⟩, ⟨row, 5⟩⟩ else
  let c1 := 5 + sp.1
  match sp.2 with
  | [] => .error ⟨expectingMoreMessage, ⟨row, c1⟩, ⟨row, c1⟩⟩
  | c :: cs =>
    if c.isAlpha then
      let body := takeLabelBody cs
      let name := String.mk (c :: body.1)
      let c2 := c1 + name.length
      finishLine row c2 body.2 (Instruction.Goto name)
        { st with usedLabels := updateSet ⟨⟨row, c1⟩, ⟨row, c2⟩, name⟩ st.usedLabels }
    else .error ⟨expectingMoreMessage, ⟨row, c1⟩, ⟨row, c1⟩⟩

/-- Rest of an `if-goto` line (`if_goto_instruction`): spaces, then a label;
the located name joins the used-label set. -/
def ifGotoRest (row : Nat) (r1 : List Char) (st : State) : Except LineErr (Instruction × State) :=
  let sp := countSpaces r1
  if sp.1 = 0 then .error ⟨expectingMoreMessage, ⟨row, 8⟩, ⟨row, 8⟩⟩ else
  let c1 := 8 + sp.1
  match sp.2 with
  | [] => .error ⟨expectingMoreMessage, ⟨row, c1⟩, ⟨row, c1⟩⟩
  | c :: cs =>
    if c.isAlpha then
      let body := takeLabelBody cs
      let name := String.mk (c :: body.1)
      let c2 := c1 + name.length
      finishLine row c2 body.2 (Instruction.IfGoto name)
        { st with usedLabels := updateSet ⟨⟨row, c1⟩, ⟨row, c2⟩, name⟩ st.usedLabels }
    else .error ⟨expectingMoreMessage, ⟨row, c1⟩, ⟨row, c1⟩⟩

/-- Rest of a `function` line (`function_declaration`): spaces, label, spaces,
local-variable count; a duplicated name is rejected with the span the source
builds there (the chain's end position minus the name length — the source
computes it after the count has been consumed). -/
def functionRest (row : Nat) (r1 : List Char) (st : State) : Except LineErr (Instruction × State) :=
  let sp := countSpaces r1
  if sp.1 = 0 then .error ⟨expectingMoreMessage, ⟨row, 9⟩, ⟨row, 9⟩⟩ else
  let c1 := 9 + sp.1
  match sp.2 with
  | [] => .error ⟨expectingMoreMessage, ⟨row, c1⟩, ⟨row, c1⟩⟩
  | c :: cs =>
    if c.isAlpha then
      let body := takeLabelBody cs
      let name := String.mk (c :: body.1)
      let c2 := c1 + name.length
      let sp2 := countSpaces body.2
      if sp2.1 = 0 then .error ⟨expectingMoreMessage, ⟨row, c2⟩, ⟨row, c2⟩⟩ else
      let dg := takeDigits sp2.2
      if dg.1.isEmpty then .error ⟨expectingMoreMessage, ⟨row, c2 + sp2.1⟩, ⟨row, c2 + sp2.1⟩⟩ else
      let c3 := c2 + sp2.1 + dg.1.length
      if (st.definedLabels.map (fun l => l.value)).contains name then
        .error ⟨duplicateLabelMessage name, ⟨row, c3 - name.length⟩, ⟨row, c3⟩⟩
      else
        finishLine row c3 dg.2 (Instruction.Function name (digitsToNat dg.1))
          { st with definedLabels := updateSet ⟨⟨row, c1⟩, ⟨row, c2⟩, name⟩ st.definedLabels }
    else .error ⟨expectingMoreMessage, ⟨row, c1⟩, ⟨row, c1⟩⟩

/-- Parse one source line: the nine alternatives of the source's `one_of!`
in order (`push`, `pop`, arithmetic, `label`, `goto`, `if-goto`, `function`,
`return`, comment-or-blank), each keyword match being all-or-nothing, and an
alternative that has consumed its keyword committing the line to it. -/
def parseLineInstr (row : Nat) (line : List Char) (st : State) :
    Except LineErr (Instruction × State) :=
  match dropLit "push".data line with
  | some r1 => pushRest row r1 st
  | none =>
  match dropLit "pop".data line with
  | some r1 => popRest row r1 st
  | none =>
  match takeArith line with
  | some (a, k, r) => finishLine row (1 + k) r (Instruction.Arithmetic a) st
  | none =>
  match dropLit "label".data line with
  | some r1 => labelRest row r1 st
  | none =>
  match dropLit "goto".data line with
  | some r1 => gotoRest row r1 st
  | none =>
  match dropLit "if-goto".data line with
  | some r1 => ifGotoRest row r1 st
  | none =>
  match dropLit "function".data line with
  | some r1 => functionRest row r1 st
  | none =>
  match dropLit "return".data line with
  | some r => finishLine row 7 r Instruction.Return st
  | none => finishLine row 1 line Instruction.Ignored st

/-- Split off the first line: characters before the first newline, and the
rest after it when a newline exists. -/
def breakLine : List Char → List Char × Option (List Char)
  | [] => ([], none)
  | c :: cs =>
    if c = '\n' then ([], some cs)
    else
      let r := breakLine cs
      (c :: r.1, r.2)

/-- Modelled from the spec: lip-internal diagnostic for a final line that is
not terminated by a newline (the grammar consumes one logical unit per
newline-terminated line). -/
def noNewlineMessage : String :=
  "I'm expecting a newline before the end of the file."

/-- The line loop of `parse` (lip's `one_or_more(left(alternatives, newline))`
followed by `end`): parse each newline-terminated line in order, threading the
validation state, stopping at the first line diagnostic.  The structural fuel
argument strictly exceeds the line count whenever `parse` calls it. -/
def runLines : Nat → List Char → Nat → State → List Instruction →
    Except LineErr (List Instruction × State)
  | 0, _, row, _, _ => .error ⟨outOfFuelMessage, ⟨row, 1⟩, ⟨row, 1⟩⟩
  | Nat.succ fuel, src, row, st, acc =>
    match src with
    | [] =>
      if acc.isEmpty then .error ⟨emptySourceMessage, ⟨row, 1⟩, ⟨row, 1⟩⟩
      else .ok (acc.reverse, st)
    | _ :: _ =>
      let br := breakLine src
      match br.2 with
      | none =>
        .error ⟨noNewlineMessage, ⟨row, 1 + br.1.length⟩, ⟨row, 1 + br.1.length⟩⟩
      | some rest =>
        match parseLineInstr row br.1 st with
        | .error e => .error e
        | .ok (ins, st2) => runLines fuel rest (row + 1) st2 (ins :: acc)

/-- Insert a record into a row-sorted list, keeping earlier-inserted records
first among equal rows (the stable sort of `sorted_by_key`). -/
def insertByRow (x : VMLocatedString) : List VMLocatedString → List VMLocatedString
  | [] => [x]
  | y :: ys => if x.frm.row ≤ y.frm.row then x :: y :: ys else y :: insertByRow x ys

/-- Stable sort of diagnostics by source row
(`sorted_by_key(|l| l.from.row)` in `parse`). -/
def sortByRow : List VMLocatedString → List VMLocatedString
  | [] => []
  | x :: xs => insertByRow x (sortByRow xs)

/-- Symmetric difference on name sets: `im::HashSet::difference` (the
operation `parse` applies to the defined and used name sets) is documented as
the symmetric difference. -/
def symmetricDifference (a b : List String) : List String :=
  a.filter (fun x => !b.contains x) ++ b.filter (fun x => !a.contains x)

/-- Modelled from the spec: lip's `display_error` rendering, which is not part
of this repository.  Per the spec's diagnostic-rendering contract (and the
repository's own test expectations), it shows the 1-based line number, the
offending source line verbatim, a caret underline spanning the referenced
text, and the message. -/
def displayError (source msg : String) (frm toL : Loc) : String :=
  let lineText := (source.splitOn "\n").getD (frm.row - 1) ""
  let rowStr := Nat.repr frm.row
  rowStr ++ "| " ++ lineText ++ "\n"
    ++ String.mk (List.replicate (rowStr.length + 2 + (frm.col - 1)) ' ')
    ++ String.mk (List.replicate (toL.col - frm.col) '^')
    ++ "\n⚠️ " ++ msg

/-- The undefined-label usage records: the source filters the used-label set
by membership of the name in the symmetric difference of defined and used
names; restricted to used records this keeps exactly the usages whose name
has no declaration. -/
def labelDifference (st : State) : List VMLocatedString :=
  let definedLabelNames := st.definedLabels.map (fun l => l.value)
  let usedLabelNames := st.usedLabels.map (fun l => l.value)
  let labelNameDifference := symmetricDifference definedLabelNames usedLabelNames
  st.usedLabels.filter (fun l => labelNameDifference.contains l.value)

/-- The line pass over a whole source text, started from row 1 with the empty
validation state and a fuel bound exceeding the line count. -/
def runSource (source : String) : Except LineErr (List Instruction × State) :=
  runLines (source.data.length + 1) source.data 1 ⟨[], []⟩ []

/-- The parser and label validator (`parse` in `vm_parser.rs`): run the line
pass, filter out `Ignored`, then the whole-program check — report every
undefined usage site, sorted by row and joined by blank lines; otherwise
return the instruction sequence. -/
def parse (source : String) : Except String (List Instruction) :=
  match runSource source with
  | .error e => .error (displayError source e.message e.frm e.toL)
  | .ok (instrs0, st) =>
    let output := instrs0.filter (fun i => !(i == Instruction.Ignored))
    let ld := labelDifference st
    if ld.isEmpty then
      .ok output
    else
      .error (String.intercalate "\n\n"
        ((sortByRow ld).map (fun l => displayError source (undefinedLabelMessage l.value) l.frm l.toL)))

/-- Shared tail that pushes D onto the stack (`emit_push_d_to_stack`). -/
def emit_push_d_to_stack : String :=
  "@SP\nA=M\nM=D\n@SP\nM=M+1"

/-- Shared head that pops the stack top into D (`emit_pop_stack_to_d`). -/
def emit_pop_stack_to_d : String :=
  "@SP\nM=M-1\nA=M\nD=M"

/-- Binary stack operation template (`emit_binary_arithmetic`). -/
def emit_binary_arithmetic (operation_str : String) : String :=
  "@SP\nM=M-1\nA=M\nD=M\n@SP\nM=M-1\nA=M\n" ++ operation_str ++ "\n@SP\nM=M+1"

/-- Unary in-place stack operation template (`emit_unary_arithmetic`). -/
def emit_unary_arithmetic (operation_str : String) : String :=
  "@SP\nM=M-1\nA=M\n" ++ operation_str ++ "\n@SP\nM=M+1"

/-- Success jump-target symbol of a comparison: `<OP>_<index>`. -/
def comp_success_label (operation_str : String) (instruction_index : Nat) : String :=
  operation_str ++ "_" ++ Nat.repr instruction_index

/-- Failure jump-target symbol of a comparison: `NOT_<OP>_<index>`. -/
def comp_failure_label (operation_str : String) (instruction_index : Nat) : String :=
  "NOT_" ++ operation_str ++ "_" ++ Nat.repr instruction_index

/-- Comparison lowering (`emit_comparison`): subtract, branch on sign through
the two per-call jump-target symbols, leaving all-ones or all-zeros. -/
def emit_comparison (instruction_index : Nat) (operation_str : String) : String :=
  emit_binary_arithmetic
    ("D=M-D\n@" ++ comp_success_label operation_str instruction_index
      ++ "\nD;J" ++ operation_str
      ++ "\n@SP\nA=M\nM=0\n@" ++ comp_failure_label operation_str instruction_index
      ++ "\n0;JMP\n(" ++ comp_success_label operation_str instruction_index
      ++ ")\n@SP\nA=M\nM=-1\n(" ++ comp_failure_label operation_str instruction_index ++ ")")

/-- Push from a base-register segment (`emit_push_fixed_segment`). -/
def emit_push_fixed_segment (base_address : String) (offset : Nat) : String :=
  "@" ++ base_address ++ "\nD=M\n@" ++ Nat.repr offset ++ "\nD=D+A\nA=D\nD=M\n"
    ++ emit_push_d_to_stack

/-- Pop into a base-register segment (`emit_pop_fixed_segment`). -/
def emit_pop_fixed_segment (base_address : String) (offset : Nat) : String :=
  "@" ++ base_address ++ "\nD=M\n@" ++ Nat.repr offset
    ++ "\nD=D+A\n@SP\nM=M-1\nA=M\nD=D+M\n@SP\nA=M\nA=D-M\nM=D-A"

/-- Push an immediate constant (`emit_push_constant_segment`). -/
def emit_push_constant_segment (number : Nat) : String :=
  "@" ++ Nat.repr number ++ "\nD=A\n" ++ emit_push_d_to_stack

/-- Push from the static segment (`emit_push_static_segment`): the address is
the per-program symbol `<programName>.<offset>`. -/
def emit_push_static_segment (file_name : String) (offset : Nat) : String :=
  "@" ++ file_name ++ "." ++ Nat.repr offset ++ "\nD=M\n" ++ emit_push_d_to_stack

/-- Pop into the static segment (`emit_pop_static_segment`). -/
def emit_pop_static_segment (file_name : String) (offset : Nat) : String :=
  emit_pop_stack_to_d ++ "\n@" ++ file_name ++ "." ++ Nat.repr offset ++ "\nM=D"

/-- Push from the temp segment (`emit_push_temp_segment`): fixed base 5 plus
the offset. -/
def emit_push_temp_segment (offset : Nat) : String :=
  "@5\nD=A\n@" ++ Nat.repr offset ++ "\nD=D+A\nA=D\nD=M\n" ++ emit_push_d_to_stack

/-- Pop into the temp segment (`emit_pop_temp_segment`). -/
def emit_pop_temp_segment (offset : Nat) : String :=
  "@5\nD=A\n@" ++ Nat.repr offset
    ++ "\nD=D+A\n@SP\nM=M-1\nA=M\nD=D+M\n@SP\nA=M\nA=D-M\nM=D-A"

/-- Push from the pointer segment (`emit_push_pointer_segment`): offset 0
addresses THIS, any other offset addresses THAT. -/
def emit_push_pointer_segment (offset : Nat) : String :=
  "@" ++ (if offset = 0 then "THIS" else "THAT") ++ "\nD=M\n" ++ emit_push_d_to_stack

/-- Pop into the pointer segment (`emit_pop_pointer_segment`). -/
def emit_pop_pointer_segment (offset : Nat) : String :=
  "@SP\nM=M-1\nA=M\nD=M\n@" ++ (if offset = 0 then "THIS" else "THAT") ++ "\nM=D"

/-- Modelled from the spec: the `Label` lowering is absent from the emitter
source; per the lowering table it declares a jump target. -/
def emit_label_decl (name : String) : String :=
  "(" ++ name ++ ")"

/-- Modelled from the spec: the `Goto` lowering is absent from the emitter
source; per the lowering table it is an unconditional jump. -/
def emit_goto_jump (name : String) : String :=
  "@" ++ name ++ "\n0;JMP"

/-- Modelled from the spec: the `IfGoto` lowering is absent from the emitter
source; per the lowering table it pops the condition off the stack and jumps
on its truthiness (any nonzero value). -/
def emit_if_goto_jump (name : String) : String :=
  "@SP\nM=M-1\nA=M\nD=M\n@" ++ name ++ "\nD;JNE"

/-- Modelled from the spec: one zero-initialized local slot reserved at
function entry (a push of the constant 0). -/
def emit_local_init : String :=
  "\n@0\nD=A\n" ++ emit_push_d_to_stack

/-- Modelled from the spec: the `Function` lowering is absent from the emitter
source; per the lowering table the entry declares the function's jump target
and reserves and zero-initializes `localVars` local slots. -/
def emit_function_entry (name : String) (localVars : Nat) : String :=
  "(" ++ name ++ ")" ++ String.join (List.replicate localVars emit_local_init)

/-- Modelled from the spec: the `Return` lowering is absent from the emitter
source; per the lowering table it relocates the return value to the caller's
stack position, restores the caller's saved registers from the frame, and
resumes at the saved return address. -/
def emit_return_block : String :=
  "@LCL\nD=M\n@R13\nM=D\n@5\nA=D-A\nD=M\n@R14\nM=D\n"
    ++ emit_pop_stack_to_d
    ++ "\n@ARG\nA=M\nM=D\n@ARG\nD=M+1\n@SP\nM=D"
    ++ "\n@R13\nAM=M-1\nD=M\n@THAT\nM=D"
    ++ "\n@R13\nAM=M-1\nD=M\n@THIS\nM=D"
    ++ "\n@R13\nAM=M-1\nD=M\n@ARG\nM=D"
    ++ "\n@R13\nAM=M-1\nD=M\n@LCL\nM=D"
    ++ "\n@R14\nA=M\n0;JMP"

/-- Lowering of one instruction at its emission index (the body of the
per-instruction closure in `emit`); the source's two panic branches —
an `Ignored` instruction reaching dispatch, and a `Pop` into `Constant` —
are embedded as `none`. -/
def emit_instruction (program_name : String) (instruction_index : Nat) :
    Instruction → Option String
  | Instruction.Arithmetic a =>
    some (match a with
      | ArithInstruction.Add => emit_binary_arithmetic "M=M+D"
      | ArithInstruction.Sub => emit_binary_arithmetic "M=M-D"
      | ArithInstruction.Eq => emit_comparison instruction_index "EQ"
      | ArithInstruction.Gt => emit_comparison instruction_index "GT"
      | ArithInstruction.Lt => emit_comparison instruction_index "LT"
      | ArithInstruction.And => emit_binary_arithmetic "M=D&M"
      | ArithInstruction.Or => emit_binary_arithmetic "M=D|M"
      | ArithInstruction.Neg => emit_unary_arithmetic "M=-M"
      | ArithInstruction.Not => emit_unary_arithmetic "M=!M")
  | Instruction.Push seg offset =>
    some (match seg with
      | Segment.Local => emit_push_fixed_segment "LCL" offset
      | Segment.Argument => emit_push_fixed_segment "ARG" offset
      | Segment.This => emit_push_fixed_segment "THIS" offset
      | Segment.That => emit_push_fixed_segment "THAT" offset
      | Segment.Constant => emit_push_constant_segment offset
      | Segment.Static => emit_push_static_segment program_name offset
      | Segment.Temp => emit_push_temp_segment offset
      | Segment.Pointer => emit_push_pointer_segment offset)
  | Instruction.Pop seg offset =>
    match seg with
    | Segment.Local => some (emit_pop_fixed_segment "LCL" offset)
    | Segment.Argument => some (emit_pop_fixed_segment "ARG" offset)
    | Segment.This => some (emit_pop_fixed_segment "THIS" offset)
    | Segment.That => some (emit_pop_fixed_segment "THAT" offset)
    | Segment.Constant => none
    | Segment.Static => some (emit_pop_static_segment program_name offset)
    | Segment.Temp => some (emit_pop_temp_segment offset)
    | Segment.Pointer => some (emit_pop_pointer_segment offset)
  | Instruction.Label name => some (emit_label_decl name)
  | Instruction.Goto name => some (emit_goto_jump name)
  | Instruction.IfGoto name => some (emit_if_goto_jump name)
  | Instruction.Function name localVars => some (emit_function_entry name localVars)
  | Instruction.Return => some emit_return_block
  | Instruction.Ignored => none

/-- One assembly block per instruction, enumerated from the given index (the
`enumerate().map(...)` of `emit`); `none` as a whole when any instruction hits
a panic branch. -/
def emitBlocks (program_name : String) : Nat → List Instruction → Option (List String)
  | _, [] => some []
  | i, ins :: rest =>
    match emit_instruction program_name i ins, emitBlocks program_name (i + 1) rest with
    | some b, some bs => some (b :: bs)
    | _, _ => none

/-- The code emitter (`emit` in `vm_emitter.rs`): filter out `Ignored`,
enumerate, lower each instruction to its block, join the blocks with
newlines. -/
def emit (program_name : String) (instructions : List Instruction) : Option String :=
  (emitBlocks program_name 0 (instructions.filter (fun i => !(i == Instruction.Ignored)))).map
    (String.intercalate "\n")

/-- The compiler pipeline (`compile` in `lib.rs`): parse, then emit; the inner
`Option` records whether the emitter would reach a panic branch. -/
def compile (program_name source : String) : Except String (Option String) :=
  (parse source).map (fun instructions => emit program_name instructions)

/-- Comparison operator name of an arithmetic instruction, when it is one of
the three comparisons lowered through jump-target symbols. -/
def comparisonOpName : ArithInstruction → Option String
  | ArithInstruction.Eq => some "EQ"
  | ArithInstruction.Gt => some "GT"
  | ArithInstruction.Lt => some "LT"
  | _ => none

/-- The comparison call sites of an emitted program: emission index and
operator name of every `Eq`/`Gt`/`Lt`, in order, indexed as `emit` indexes
them. -/
def comparisonCalls : Nat → List Instruction → List (Nat × String)
  | _, [] => []
  | i, Instruction.Arithmetic a :: rest =>
    match comparisonOpName a with
    | some op => (i, op) :: comparisonCalls (i + 1) rest
    | none => comparisonCalls (i + 1) rest
  | i, _ :: rest => comparisonCalls (i + 1) rest

/-- The pair of jump-target symbols generated for one comparison call site. -/
def comparisonSymbolPair (c : Nat × String) : String × String :=
  (comp_success_label c.2 c.1, comp_failure_label c.2 c.1)

/-- Count of comparison (`Eq`/`Gt`/`Lt`) instructions in a sequence. -/
def comparisonCount : List Instruction → Nat
  | [] => 0
  | Instruction.Arithmetic a :: rest =>
    match comparisonOpName a with
    | some _ => comparisonCount rest + 1
    | none => comparisonCount rest
  | _ :: rest => comparisonCount rest

/-- The newline-separated lines of a character stream, mirroring the stepping
of `runLines` (fuel-bounded exactly like `runLines`). -/
def linesOf : Nat → List Char → List (List Char)
  | 0, _ => []
  | Nat.succ fuel, src =>
    match src with
    | [] => []
    | _ :: _ =>
      let br := breakLine src
      match br.2 with
      | none => [br.1]
      | some rest => br.1 :: linesOf fuel rest

/-- The content of the 1-based `row`-th line of a source text. -/
def lineAt (source : String) (row : Nat) : Option (List Char) :=
  (linesOf (source.data.length + 1) source.data)[row - 1]?

/-- Decimal digit characters of a natural number, most significant first
(a fuel-free restatement of core's `Nat.toDigits 10`, used only to reason
about `Nat.repr`). -/
def natDigits (n : Nat) : List Char :=
  if _h : n < 10 then [Nat.digitChar n]
  else natDigits (n / 10) ++ [Nat.digitChar (n % 10)]
  decreasing_by
    exact Nat.div_lt_self (by omega) (by omega)

/-! Helper lemmas: decimal representation. -/

theorem natDigits_lt (n : Nat) (h : n < 10) : natDigits n = [Nat.digitChar n] := by
  unfold natDigits
  simp [h]

theorem natDigits_ge (n : Nat) (h : ¬ n < 10) :
    natDigits n = natDigits (n / 10) ++ [Nat.digitChar (n % 10)] := by
  conv_lhs => unfold natDigits
  simp [h]

theorem toDigitsCore_eq_natDigits (fuel : Nat) :
    ∀ (n : Nat) (ds : List Char), n < fuel →
      Nat.toDigitsCore 10 fuel n ds = natDigits n ++ ds := by
  induction fuel with
  | zero => intro n ds h; omega
  | succ f ih =>
    intro n ds h
    unfold Nat.toDigitsCore
    by_cases h10 : n / 10 = 0
    · have hn : n < 10 := by omega
      simp [h10, natDigits_lt n hn, Nat.mod_eq_of_lt hn]
    · simp only [h10, if_neg, ite_false]
      rw [ih (n / 10) _ (by omega), natDigits_ge n (by omega)]
      simp

theorem repr_data_eq (n : Nat) : (Nat.repr n).data = natDigits n := by
  show (Nat.toDigits 10 n).asString.data = natDigits n
  rw [Nat.toDigits, toDigitsCore_eq_natDigits (n + 1) n [] (by omega)]
  simp [List.asString]

theorem digitChar_val (m : Nat) (h : m < 10) : (Nat.digitChar m).toNat - 48 = m := by
  interval_cases m <;> decide

theorem digitsToNat_append_single (a : List Char) (c : Char) :
    digitsToNat (a ++ [c]) = digitsToNat a * 10 + (c.toNat - 48) := by
  simp [digitsToNat, List.foldl_append]

theorem digitsToNat_natDigits (n : Nat) : digitsToNat (natDigits n) = n := by
  induction n using Nat.strong_induction_on with
  | _ n ih =>
    by_cases h : n < 10
    · rw [natDigits_lt n h]
      have : digitsToNat [Nat.digitChar n] = (Nat.digitChar n).toNat - 48 := by
        simp [digitsToNat]
      rw [this, digitChar_val n h]
    · rw [natDigits_ge n h, digitsToNat_append_single]
      rw [ih (n / 10) (Nat.div_lt_self (by omega) (by omega))]
      rw [digitChar_val (n % 10) (Nat.mod_lt _ (by omega))]
      omega

theorem natRepr_injective (m n : Nat) (h : Nat.repr m = Nat.repr n) : m = n := by
  have hd : natDigits m = natDigits n := by
    rw [← repr_data_eq, ← repr_data_eq, h]
  calc m = digitsToNat (natDigits m) := (digitsToNat_natDigits m).symm
    _ = digitsToNat (natDigits n) := by rw [hd]
    _ = n := digitsToNat_natDigits n

/-! Helper lemmas: character-level primitives. -/

theorem dropLit_append (p s : List Char) : dropLit p (p ++ s) = some s := by
  induction p with
  | nil => rfl
  | cons c cs ih => simp [dropLit, ih]

theorem breakLine_some_length (s : List Char) :
    ∀ rest, (breakLine s).2 = some rest → rest.length < s.length := by
  induction s with
  | nil => intro rest h; simp [breakLine] at h
  | cons c cs ih =>
    intro rest h
    unfold breakLine at h
    by_cases hc : c = '\n'
    · simp [hc] at h
      subst h
      simp
    · simp [hc] at h
      have := ih rest h
      simp
      omega

theorem countSpaces_nil : countSpaces [] = (0, []) := rfl

theorem countSpaces_cons_ne (c : Char) (r : List Char) (hc : ¬ c = ' ') :
    countSpaces (c :: r) = (0, c :: r) := by
  rw [countSpaces.eq_def]
  split
  · rename_i rest heq
    cases heq
    exact absurd rfl hc
  · rfl

theorem countSpaces_replicate (n : Nat) (r : List Char)
    (hr : ∀ c cs, r = c :: cs → ¬ c = ' ') :
    countSpaces (List.replicate n ' ' ++ r) = (n, r) := by
  induction n with
  | zero =>
    simp only [List.replicate, List.nil_append]
    cases r with
    | nil => rfl
    | cons c cs => exact countSpaces_cons_ne c cs (hr c cs rfl)
  | succ n ih =>
    rw [List.replicate_succ, List.cons_append]
    have hstep : ∀ t, countSpaces (' ' :: t) = ((countSpaces t).1 + 1, (countSpaces t).2) :=
      fun t => rfl
    rw [hstep, ih]

theorem takeDigits_append (ds rest : List Char) (hds : ∀ c ∈ ds, c.isDigit = true)
    (hrest : ∀ c cs, rest = c :: cs → c.isDigit = false) :
    takeDigits (ds ++ rest) = (ds, rest) := by
  induction ds with
  | nil =>
    cases rest with
    | nil => rfl
    | cons c cs => simp [takeDigits, hrest c cs rfl]
  | cons d ds ih =>
    have hd : d.isDigit = true := hds d (by simp)
    simp only [List.cons_append, takeDigits, hd, if_true, List.append_eq]
    rw [ih (fun c hc => hds c (by simp [hc]))]

theorem takeLabelBody_append (bs rest : List Char) (hbs : ∀ c ∈ bs, isLabelChar c = true)
    (hrest : ∀ c cs, rest = c :: cs → isLabelChar c = false) :
    takeLabelBody (bs ++ rest) = (bs, rest) := by
  induction bs with
  | nil =>
    cases rest with
    | nil => rfl
    | cons c cs => simp [takeLabelBody, hrest c cs rfl]
  | cons b bs ih =>
    have hb : isLabelChar b = true := hbs b (by simp)
    simp only [List.cons_append, takeLabelBody, hb, if_true, List.append_eq]
    rw [ih (fun c hc => hbs c (by simp [hc]))]

/-! Helper lemmas: shapes of successful line parses. -/

theorem finishLine_ok (row col : Nat) (rest : List Char) (ins : Instruction) (st : State)
    (p : Instruction × State) (h : finishLine row col rest ins st = .ok p) : p = (ins, st) := by
  unfold finishLine at h
  simp only [] at h
  split at h <;> simp_all

theorem pushRest_ok_shape (row : Nat) (r1 : List Char) (st : State) (ins : Instruction)
    (st2 : State) (h : pushRest row r1 st = .ok (ins, st2)) :
    ∃ seg off, ins = Instruction.Push seg off := by
  unfold pushRest at h
  simp only [] at h
  split at h
  · exact absurd h (by simp)
  split at h
  · exact absurd h (by simp)
  split at h
  · exact absurd h (by simp)
  split at h
  · exact absurd h (by simp)
  have hp := finishLine_ok _ _ _ _ _ _ h
  exact ⟨_, _, congrArg Prod.fst hp⟩

theorem popRest_ok_shape (row : Nat) (r1 : List Char) (st : State) (ins : Instruction)
    (st2 : State) (h : popRest row r1 st = .ok (ins, st2)) :
    ∃ seg off, ins = Instruction.Pop seg off ∧ seg ≠ Segment.Constant := by
  unfold popRest at h
  simp only [] at h
  repeat' split at h
  all_goals try exact Except.noConfusion h
  · have hp := finishLine_ok _ _ _ _ _ _ h
    injection hp with h1 h2
    exact ⟨_, _, h1, by simp⟩
  · have hp := finishLine_ok _ _ _ _ _ _ h
    injection hp with h1 h2
    rename_i hc hpt
    exact ⟨_, _, h1, hc⟩

theorem labelRest_ok_shape (row : Nat) (r1 : List Char) (st : State) (ins : Instruction)
    (st2 : State) (h : labelRest row r1 st = .ok (ins, st2)) :
    ∃ nm, ins = Instruction.Label nm := by
  unfold labelRest at h
  simp only [] at h
  repeat' split at h
  all_goals try exact Except.noConfusion h
  have hp := finishLine_ok _ _ _ _ _ _ h
  injection hp with h1 h2
  exact ⟨_, h1⟩

theorem gotoRest_ok_shape (row : Nat) (r1 : List Char) (st : State) (ins : Instruction)
    (st2 : State) (h : gotoRest row r1 st = .ok (ins, st2)) :
    ∃ nm, ins = Instruction.Goto nm := by
  unfold gotoRest at h
  simp only [] at h
  repeat' split at h
  all_goals try exact Except.noConfusion h
  have hp := finishLine_ok _ _ _ _ _ _ h
  injection hp with h1 h2
  exact ⟨_, h1⟩

theorem ifGotoRest_ok_shape (row : Nat) (r1 : List Char) (st : State) (ins : Instruction)
    (st2 : State) (h : ifGotoRest row r1 st = .ok (ins, st2)) :
    ∃ nm, ins = Instruction.IfGoto nm := by
  unfold ifGotoRest at h
  simp only [] at h
  repeat' split at h
  all_goals try exact Except.noConfusion h
  have hp := finishLine_ok _ _ _ _ _ _ h
  injection hp with h1 h2
  exact ⟨_, h1⟩

theorem functionRest_ok_shape (row : Nat) (r1 : List Char) (st : State) (ins : Instruction)
    (st2 : State) (h : functionRest row r1 st = .ok (ins, st2)) :
    ∃ nm lv, ins = Instruction.Function nm lv := by
  unfold functionRest at h
  simp only [] at h
  repeat' split at h
  all_goals try exact Except.noConfusion h
  have hp := finishLine_ok _ _ _ _ _ _ h
  injection hp with h1 h2
  exact ⟨_, _, h1⟩

theorem parseLineInstr_ok_no_pop_constant (row : Nat) (line : List Char) (st : State)
    (ins : Instruction) (st2 : State) (h : parseLineInstr row line st = .ok (ins, st2)) :
    ∀ n, ins ≠ Instruction.Pop Segment.Constant n := by
  intro n
  unfold parseLineInstr at h
  simp only [] at h
  split at h
  · obtain ⟨seg, off, he⟩ := pushRest_ok_shape _ _ _ _ _ h
    simp [he]
  split at h
  · obtain ⟨seg, off, he, hc⟩ := popRest_ok_shape _ _ _ _ _ h
    simp only [he]
    intro hx
    exact hc (by cases hx; rfl)
  split at h
  · have hp := finishLine_ok _ _ _ _ _ _ h
    have := congrArg Prod.fst hp
    simp at this
    simp [this]
  split at h
  · obtain ⟨nm, he⟩ := labelRest_ok_shape _ _ _ _ _ h
    simp [he]
  split at h
  · obtain ⟨nm, he⟩ := gotoRest_ok_shape _ _ _ _ _ h
    simp [he]
  split at h
  · obtain ⟨nm, he⟩ := ifGotoRest_ok_shape _ _ _ _ _ h
    simp [he]
  split at h
  · obtain ⟨nm, lv, he⟩ := functionRest_ok_shape _ _ _ _ _ h
    simp [he]
  split at h
  · have hp := finishLine_ok _ _ _ _ _ _ h
    have := congrArg Prod.fst hp
    simp at this
    simp [this]
  · have hp := finishLine_ok _ _ _ _ _ _ h
    have := congrArg Prod.fst hp
    simp at this
    simp [this]

/-! Helper lemmas: the line loop and the whole-program pass. -/

theorem runLines_ok_no_pop_constant (fuel : Nat) :
    ∀ src row st acc instrs stF,
      runLines fuel src row st acc = .ok (instrs, stF) →
      (∀ i ∈ acc, ∀ n, i ≠ Instruction.Pop Segment.Constant n) →
      ∀ i ∈ instrs, ∀ n, i ≠ Instruction.Pop Segment.Constant n := by
  induction fuel with
  | zero =>
    intro src row st acc instrs stF h
    exact absurd h (by simp [runLines])
  | succ f ih =>
    intro src row st acc instrs stF h hacc
    cases src with
    | nil =>
      rw [runLines] at h
      split at h
      · exact Except.noConfusion h
      · injection h with h1
        injection h1 with ha hb
        subst ha
        intro i hi
        exact hacc i (List.mem_reverse.mp hi)
    | cons c cs =>
      rw [runLines] at h
      split at h
      · exact Except.noConfusion h
      · rename_i rest hbr
        split at h
        · exact Except.noConfusion h
        · rename_i ins st2 hline
          exact ih rest (row + 1) st2 (ins :: acc) instrs stF h
            (by
              intro i hi
              rcases List.mem_cons.mp hi with hi | hi
              · subst hi
                exact parseLineInstr_ok_no_pop_constant _ _ _ _ _ hline
              · exact hacc i hi)

theorem runLines_ok_lines (f1 : Nat) :
    ∀ f2 src row st acc out, src.length < f2 →
      runLines f1 src row st acc = .ok out →
      ∀ l ∈ linesOf f2 src, ∃ r s p, parseLineInstr r l s = .ok p := by
  induction f1 with
  | zero =>
    intro f2 src row st acc out hlen h
    exact absurd h (by simp [runLines])
  | succ f ih =>
    intro f2 src row st acc out hlen h
    cases f2 with
    | zero => omega
    | succ f2 =>
      cases src with
      | nil =>
        intro l hl
        simp [linesOf] at hl
      | cons c cs =>
        rw [runLines] at h
        intro l hl
        rw [linesOf] at hl
        split at h
        · exact Except.noConfusion h
        · rename_i rest hbr
          split at h
          · exact Except.noConfusion h
          · rename_i ins st2 hline
            rw [hbr] at hl
            simp only [] at hl
            rcases List.mem_cons.mp hl with hl | hl
            · exact ⟨row, st, (ins, st2), hl ▸ hline⟩
            · have hrl : rest.length < cs.length + 1 :=
                breakLine_some_length (c :: cs) rest hbr
              have hcs : cs.length + 1 < f2 + 1 := by simpa using hlen
              exact ih f2 rest (row + 1) st2 (ins :: acc) out (by omega) h l hl

theorem parse_ok_shape (source : String) (instrs : List Instruction)
    (h : parse source = .ok instrs) :
    ∃ instrs0 st, runSource source = .ok (instrs0, st) ∧
      instrs = instrs0.filter (fun i => !(i == Instruction.Ignored)) ∧
      labelDifference st = [] := by
  unfold parse at h
  split at h
  · exact Except.noConfusion h
  · rename_i instrs0 st heq
    simp only [] at h
    split at h
    · rename_i hempty
      injection h with h1
      exact ⟨instrs0, st, heq, h1.symm, List.isEmpty_iff.mp hempty⟩
    · exact Except.noConfusion h

theorem parse_ok_of_run (source : String) (instrs0 : List Instruction) (st : State)
    (hrun : runSource source = .ok (instrs0, st)) (hld : labelDifference st = []) :
    parse source = .ok (instrs0.filter (fun i => !(i == Instruction.Ignored))) := by
  unfold parse
  rw [hrun]
  simp [hld]

theorem parse_error_of_run (source : String) (instrs0 : List Instruction) (st : State)
    (hrun : runSource source = .ok (instrs0, st)) (hld : ¬ labelDifference st = []) :
    parse source = .error (String.intercalate "\n\n"
      ((sortByRow (labelDifference st)).map
        (fun l => displayError source (undefinedLabelMessage l.value) l.frm l.toL))) := by
  unfold parse
  rw [hrun]
  simp only []
  rw [if_neg (by simpa [List.isEmpty_iff] using hld)]

theorem labelDifference_eq_undef (st : State) :
    labelDifference st =
      st.usedLabels.filter
        (fun u => !((st.definedLabels.map (fun l => l.value)).contains u.value)) := by
  unfold labelDifference symmetricDifference
  simp only []
  apply List.filter_congr
  intro u hu
  have hmem : u.value ∈ st.usedLabels.map (fun l => l.value) :=
    List.mem_map_of_mem _ hu
  by_cases hd : u.value ∈ st.definedLabels.map (fun l => l.value)
  · simp [List.mem_filter, hd, hmem]
    exact ⟨by simpa using hmem, by simpa using hd⟩
  · simp [List.mem_filter, hd, hmem]
    simpa using hd

/-! Helper lemmas: the row sort. -/

theorem insertByRow_perm (x : VMLocatedString) (l : List VMLocatedString) :
    (insertByRow x l).Perm (x :: l) := by
  induction l with
  | nil => exact List.Perm.refl _
  | cons y ys ih =>
    unfold insertByRow
    split
    · exact List.Perm.refl _
    · exact (ih.cons y).trans (List.Perm.swap x y ys)

theorem sortByRow_perm (l : List VMLocatedString) : (sortByRow l).Perm l := by
  induction l with
  | nil => exact List.Perm.refl _
  | cons x xs ih =>
    exact (insertByRow_perm x (sortByRow xs)).trans (ih.cons x)

theorem insertByRow_pairwise (x : VMLocatedString) (l : List VMLocatedString)
    (h : l.Pairwise (fun a b => a.frm.row ≤ b.frm.row)) :
    (insertByRow x l).Pairwise (fun a b => a.frm.row ≤ b.frm.row) := by
  induction l with
  | nil => simp [insertByRow]
  | cons y ys ih =>
    rw [List.pairwise_cons] at h
    obtain ⟨hy, hys⟩ := h
    unfold insertByRow
    split
    · rename_i hle
      refine List.Pairwise.cons ?_ (List.Pairwise.cons hy hys)
      intro b hb
      rcases List.mem_cons.mp hb with hb | hb
      · exact hb ▸ hle
      · exact le_trans hle (hy b hb)
    · rename_i hgt
      refine List.Pairwise.cons ?_ (ih hys)
      intro b hb
      rcases List.mem_cons.mp ((insertByRow_perm x ys).mem_iff.mp hb) with hb | hb
      · subst hb
        omega
      · exact hy b hb

theorem sortByRow_pairwise (l : List VMLocatedString) :
    (sortByRow l).Pairwise (fun a b => a.frm.row ≤ b.frm.row) := by
  induction l with
  | nil => simp [sortByRow]
  | cons x xs ih => exact insertByRow_pairwise x (sortByRow xs) ih

/-! Helper lemmas: the emitter. -/

theorem emit_instruction_some (name : String) (i : Nat) (ins : Instruction)
    (hni : ins ≠ Instruction.Ignored)
    (hnp : ∀ n, ins ≠ Instruction.Pop Segment.Constant n) :
    ∃ b, emit_instruction name i ins = some b := by
  cases ins with
  | Pop seg off =>
    cases seg
    case Constant => exact absurd rfl (hnp off)
    all_goals exact ⟨_, rfl⟩
  | Ignored => exact absurd rfl hni
  | Arithmetic a => exact ⟨_, rfl⟩
  | Push seg off => exact ⟨_, rfl⟩
  | Label nm => exact ⟨_, rfl⟩
  | Goto nm => exact ⟨_, rfl⟩
  | IfGoto nm => exact ⟨_, rfl⟩
  | Function nm lv => exact ⟨_, rfl⟩
  | Return => exact ⟨_, rfl⟩

theorem emitBlocks_some (name : String) (l : List Instruction) :
    ∀ i, (∀ ins ∈ l, ins ≠ Instruction.Ignored ∧ ∀ n, ins ≠ Instruction.Pop Segment.Constant n) →
    ∃ bs, emitBlocks name i l = some bs ∧ bs.length = l.length ∧
      ∀ k ins, l[k]? = some ins → bs[k]? = emit_instruction name (i + k) ins := by
  induction l with
  | nil =>
    intro i _
    exact ⟨[], rfl, rfl, by intro k ins hk; simp at hk⟩
  | cons ins rest ih =>
    intro i h
    obtain ⟨b, hb⟩ :=
      emit_instruction_some name i ins (h ins (by simp)).1 (h ins (by simp)).2
    obtain ⟨bs, hbs, hlen, hpt⟩ := ih (i + 1) (fun x hx => h x (by simp [hx]))
    refine ⟨b :: bs, ?_, by simp [hlen], ?_⟩
    · unfold emitBlocks
      rw [hb, hbs]
    · intro k x hk
      cases k with
      | zero =>
        simp only [List.getElem?_cons_zero] at hk ⊢
        injection hk with hk
        subst hk
        rw [Nat.add_zero]
        exact hb.symm
      | succ k =>
        simp only [List.getElem?_cons_succ] at hk ⊢
        rw [hpt k x hk]
        have hik : i + 1 + k = i + (k + 1) := by omega
        rw [hik]

theorem filter_eq_self_of_no_ignored (l : List Instruction)
    (h : Instruction.Ignored ∉ l) :
    l.filter (fun i => !(i == Instruction.Ignored)) = l := by
  apply List.filter_eq_self.mpr
  intro a ha
  simp only [Bool.not_eq_eq_eq_not, Bool.not_true, beq_eq_false_iff_ne, ne_eq]
  exact fun he => h (he ▸ ha)

theorem parse_no_ignored (source : String) (instrs : List Instruction)
    (h : parse source = .ok instrs) : Instruction.Ignored ∉ instrs := by
  obtain ⟨instrs0, st, hrun, hfil, hld⟩ := parse_ok_shape source instrs h
  subst hfil
  intro hmem
  have := (List.mem_filter.mp hmem).2
  simp at this

theorem parse_no_pop_constant (source : String) (instrs : List Instruction)
    (h : parse source = .ok instrs) :
    ∀ i ∈ instrs, ∀ n, i ≠ Instruction.Pop Segment.Constant n := by
  obtain ⟨instrs0, st, hrun, hfil, hld⟩ := parse_ok_shape source instrs h
  subst hfil
  intro i hi
  exact runLines_ok_no_pop_constant _ _ _ _ _ _ _ hrun (by simp) i (List.mem_filter.mp hi).1

theorem emit_on_parse (name source : String) (instrs : List Instruction)
    (h : parse source = .ok instrs) :
    ∃ bs, emitBlocks name 0 instrs = some bs ∧
      emit name instrs = some (String.intercalate "\n" bs) ∧
      bs.length = instrs.length ∧
      ∀ k ins, instrs[k]? = some ins → bs[k]? = emit_instruction name k ins := by
  have hni := parse_no_ignored source instrs h
  have hnp := parse_no_pop_constant source instrs h
  obtain ⟨bs, hbs, hlen, hpt⟩ :=
    emitBlocks_some name instrs 0 (fun ins hins => ⟨fun he => hni (he ▸ hins), hnp ins hins⟩)
  refine ⟨bs, hbs, ?_, hlen, fun k ins hk => (hpt k ins hk).trans (by rw [Nat.zero_add])⟩
  unfold emit
  rw [filter_eq_self_of_no_ignored instrs hni, hbs]
  rfl

/-! Helper lemmas: comparison call sites and their symbols. -/

theorem comp_success_label_ne (i j : Nat) (o1 o2 : String)
    (h1 : o1 = "EQ" ∨ o1 = "GT" ∨ o1 = "LT") (h2 : o2 = "EQ" ∨ o2 = "GT" ∨ o2 = "LT")
    (hij : i ≠ j) : comp_success_label o1 i ≠ comp_success_label o2 j := by
  intro h
  have hd := congrArg String.data h
  have eEQ : ("EQ" : String).data = ['E', 'Q'] := rfl
  have eGT : ("GT" : String).data = ['G', 'T'] := rfl
  have eLT : ("LT" : String).data = ['L', 'T'] := rfl
  have eU : ("_" : String).data = ['_'] := rfl
  rcases h1 with rfl | rfl | rfl <;> rcases h2 with rfl | rfl | rfl <;>
    simp only [comp_success_label, String.data_append, eEQ, eGT, eLT, eU,
      List.cons_append, List.nil_append, List.cons.injEq, true_and] at hd <;>
    try exact hd.1
  all_goals exact hij (natRepr_injective i j (by
    apply String.ext
    simpa using hd))

theorem comparisonSymbolPair_ne (a b : Nat × String)
    (ha : a.2 = "EQ" ∨ a.2 = "GT" ∨ a.2 = "LT") (hb : b.2 = "EQ" ∨ b.2 = "GT" ∨ b.2 = "LT")
    (hij : a.1 ≠ b.1) : comparisonSymbolPair a ≠ comparisonSymbolPair b := by
  intro h
  exact comp_success_label_ne a.1 b.1 a.2 b.2 ha hb hij (congrArg Prod.fst h)

theorem comparisonCalls_length (l : List Instruction) :
    ∀ i, (comparisonCalls i l).length = comparisonCount l := by
  induction l with
  | nil => intro i; rfl
  | cons ins rest ih =>
    intro i
    cases ins with
    | Arithmetic a =>
      cases a <;> simp [comparisonCalls, comparisonCount, comparisonOpName, ih (i + 1)]
    | Push seg off => simp [comparisonCalls, comparisonCount, ih (i + 1)]
    | Pop seg off => simp [comparisonCalls, comparisonCount, ih (i + 1)]
    | Label nm => simp [comparisonCalls, comparisonCount, ih (i + 1)]
    | Goto nm => simp [comparisonCalls, comparisonCount, ih (i + 1)]
    | IfGoto nm => simp [comparisonCalls, comparisonCount, ih (i + 1)]
    | Function nm lv => simp [comparisonCalls, comparisonCount, ih (i + 1)]
    | Return => simp [comparisonCalls, comparisonCount, ih (i + 1)]
    | Ignored => simp [comparisonCalls, comparisonCount, ih (i + 1)]

theorem comparisonCalls_index_ge (l : List Instruction) :
    ∀ i x, x ∈ comparisonCalls i l → i ≤ x.1 := by
  induction l with
  | nil => intro i x hx; simp [comparisonCalls] at hx
  | cons ins rest ih =>
    intro i x hx
    cases ins with
    | Arithmetic a =>
      cases a <;> simp only [comparisonCalls, comparisonOpName] at hx <;>
        first
          | (rcases List.mem_cons.mp hx with hx | hx
             · subst hx; exact le_refl _
             · exact le_trans (by omega) (ih (i + 1) x hx))
          | exact le_trans (by omega) (ih (i + 1) x hx)
    | Push seg off => exact le_trans (by omega) (ih (i + 1) x hx)
    | Pop seg off => exact le_trans (by omega) (ih (i + 1) x hx)
    | Label nm => exact le_trans (by omega) (ih (i + 1) x hx)
    | Goto nm => exact le_trans (by omega) (ih (i + 1) x hx)
    | IfGoto nm => exact le_trans (by omega) (ih (i + 1) x hx)
    | Function nm lv => exact le_trans (by omega) (ih (i + 1) x hx)
    | Return => exact le_trans (by omega) (ih (i + 1) x hx)
    | Ignored => exact le_trans (by omega) (ih (i + 1) x hx)

theorem comparisonCalls_pairwise (l : List Instruction) :
    ∀ i, (comparisonCalls i l).Pairwise (fun a b => a.1 < b.1) := by
  induction l with
  | nil => intro i; simp [comparisonCalls]
  | cons ins rest ih =>
    intro i
    cases ins with
    | Arithmetic a =>
      cases a <;> simp only [comparisonCalls, comparisonOpName] <;>
        first
          | (refine List.Pairwise.cons ?_ (ih (i + 1))
             intro x hx
             have := comparisonCalls_index_ge rest (i + 1) x hx
             simp
             omega)
          | exact ih (i + 1)
    | Push seg off => exact ih (i + 1)
    | Pop seg off => exact ih (i + 1)
    | Label nm => exact ih (i + 1)
    | Goto nm => exact ih (i + 1)
    | IfGoto nm => exact ih (i + 1)
    | Function nm lv => exact ih (i + 1)
    | Return => exact ih (i + 1)
    | Ignored => exact ih (i + 1)

theorem comparisonCalls_op_mem (l : List Instruction) :
    ∀ i x, x ∈ comparisonCalls i l → x.2 = "EQ" ∨ x.2 = "GT" ∨ x.2 = "LT" := by
  induction l with
  | nil => intro i x hx; simp [comparisonCalls] at hx
  | cons ins rest ih =>
    intro i x hx
    cases ins with
    | Arithmetic a =>
      cases a <;> simp only [comparisonCalls, comparisonOpName] at hx <;>
        first
          | (rcases List.mem_cons.mp hx with hx | hx
             · subst hx; simp
             · exact ih (i + 1) x hx)
          | exact ih (i + 1) x hx
    | Push seg off => exact ih (i + 1) x hx
    | Pop seg off => exact ih (i + 1) x hx
    | Label nm => exact ih (i + 1) x hx
    | Goto nm => exact ih (i + 1) x hx
    | IfGoto nm => exact ih (i + 1) x hx
    | Function nm lv => exact ih (i + 1) x hx
    | Return => exact ih (i + 1) x hx
    | Ignored => exact ih (i + 1) x hx

theorem comparisonCalls_get (l : List Instruction) :
    ∀ i x, x ∈ comparisonCalls i l →
      ∃ k a, x.1 = i + k ∧ l[k]? = some (Instruction.Arithmetic a) ∧
        comparisonOpName a = some x.2 := by
  induction l with
  | nil => intro i x hx; simp [comparisonCalls] at hx
  | cons ins rest ih =>
    intro i x hx
    have step : x ∈ comparisonCalls (i + 1) rest →
        ∃ k a, x.1 = i + k ∧ (ins :: rest)[k]? = some (Instruction.Arithmetic a) ∧
          comparisonOpName a = some x.2 := by
      intro hx2
      obtain ⟨k, a, hk, hg, ho⟩ := ih (i + 1) x hx2
      exact ⟨k + 1, a, by omega, by simpa using hg, ho⟩
    cases ins with
    | Arithmetic a =>
      cases a with
      | Eq =>
        have hx1 : x ∈ (i, "EQ") :: comparisonCalls (i + 1) rest := hx
        rcases List.mem_cons.mp hx1 with hx2 | hx2
        · subst hx2
          exact ⟨0, ArithInstruction.Eq, by omega, by simp, rfl⟩
        · exact step hx2
      | Gt =>
        have hx1 : x ∈ (i, "GT") :: comparisonCalls (i + 1) rest := hx
        rcases List.mem_cons.mp hx1 with hx2 | hx2
        · subst hx2
          exact ⟨0, ArithInstruction.Gt, by omega, by simp, rfl⟩
        · exact step hx2
      | Lt =>
        have hx1 : x ∈ (i, "LT") :: comparisonCalls (i + 1) rest := hx
        rcases List.mem_cons.mp hx1 with hx2 | hx2
        · subst hx2
          exact ⟨0, ArithInstruction.Lt, by omega, by simp, rfl⟩
        · exact step hx2
      | Add => exact step hx
      | Sub => exact step hx
      | Neg => exact step hx
      | And => exact step hx
      | Or => exact step hx
      | Not => exact step hx
    | Push seg off => exact step hx
    | Pop seg off => exact step hx
    | Label nm => exact step hx
    | Goto nm => exact step hx
    | IfGoto nm => exact step hx
    | Function nm lv => exact step hx
    | Return => exact step hx
    | Ignored => exact step hx

theorem emit_instruction_comparison (name : String) (i : Nat) (a : ArithInstruction)
    (op : String) (h : comparisonOpName a = some op) :
    emit_instruction name i (Instruction.Arithmetic a) = some (emit_comparison i op) := by
  cases a <;> simp [comparisonOpName] at h <;> subst h <;> rfl

/-! Claim theorems. -/

/-- Claim C1: for every successfully parsed program and program name, emit
lowers each Label, Goto, IfGoto, Function and Return instruction into its own
assembly block — a jump-target declaration for Label, an unconditional jump
for Goto, a conditional jump on stack-top truthiness that pops the condition
for IfGoto, a function entry that reserves and zero-initializes localCount
local slots for Function, and the return sequence for Return — the emitted
text being the newline-join of one block per instruction. -/
theorem claim_C1_control_flow_lowering (source program_name : String)
    (instrs : List Instruction) (h : parse source = .ok instrs) :
    ∃ bs, emit program_name instrs = some (String.intercalate "\n" bs) ∧
      bs.length = instrs.length ∧
      ∀ k : Nat,
        (∀ nm, instrs[k]? = some (Instruction.Label nm) →
          bs[k]? = some ("(" ++ nm ++ ")")) ∧
        (∀ nm, instrs[k]? = some (Instruction.Goto nm) →
          bs[k]? = some ("@" ++ nm ++ "\n0;JMP")) ∧
        (∀ nm, instrs[k]? = some (Instruction.IfGoto nm) →
          bs[k]? = some ("@SP\nM=M-1\nA=M\nD=M\n@" ++ nm ++ "\nD;JNE")) ∧
        (∀ nm lv, instrs[k]? = some (Instruction.Function nm lv) →
          bs[k]? = some ("(" ++ nm ++ ")" ++ String.join (List.replicate lv emit_local_init))) ∧
        (instrs[k]? = some Instruction.Return → bs[k]? = some emit_return_block) := by
  obtain ⟨bs, hbs, hemit, hlen, hpt⟩ := emit_on_parse program_name source instrs h
  refine ⟨bs, hemit, hlen, fun k => ⟨?_, ?_, ?_, ?_, ?_⟩⟩
  · intro nm hk
    rw [hpt k _ hk]
    rfl
  · intro nm hk
    rw [hpt k _ hk]
    rfl
  · intro nm hk
    rw [hpt k _ hk]
    rfl
  · intro nm lv hk
    rw [hpt k _ hk]
    rfl
  · intro hk
    rw [hpt k _ hk]
    rfl

/-- Witness for C1 at the program `label L1 / goto L1 / if-goto L1 /
function Main.fn 2 / return`. -/
theorem claim_C1_control_flow_lowering_witness :
    ∃ bs, emit "Prog"
        [Instruction.Label "L1", Instruction.Goto "L1", Instruction.IfGoto "L1",
         Instruction.Function "Main.fn" 2, Instruction.Return] =
      some (String.intercalate "\n" bs) ∧
      bs.length = 5 ∧
      ∀ k : Nat,
        (∀ nm, [Instruction.Label "L1", Instruction.Goto "L1", Instruction.IfGoto "L1",
            Instruction.Function "Main.fn" 2, Instruction.Return][k]? =
              some (Instruction.Label nm) →
          bs[k]? = some ("(" ++ nm ++ ")")) ∧
        (∀ nm, [Instruction.Label "L1", Instruction.Goto "L1", Instruction.IfGoto "L1",
            Instruction.Function "Main.fn" 2, Instruction.Return][k]? =
              some (Instruction.Goto nm) →
          bs[k]? = some ("@" ++ nm ++ "\n0;JMP")) ∧
        (∀ nm, [Instruction.Label "L1", Instruction.Goto "L1", Instruction.IfGoto "L1",
            Instruction.Function "Main.fn" 2, Instruction.Return][k]? =
              some (Instruction.IfGoto nm) →
          bs[k]? = some ("@SP\nM=M-1\nA=M\nD=M\n@" ++ nm ++ "\nD;JNE")) ∧
        (∀ nm lv, [Instruction.Label "L1", Instruction.Goto "L1", Instruction.IfGoto "L1",
            Instruction.Function "Main.fn" 2, Instruction.Return][k]? =
              some (Instruction.Function nm lv) →
          bs[k]? = some ("(" ++ nm ++ ")" ++ String.join (List.replicate lv emit_local_init))) ∧
        ([Instruction.Label "L1", Instruction.Goto "L1", Instruction.IfGoto "L1",
            Instruction.Function "Main.fn" 2, Instruction.Return][k]? =
              some Instruction.Return →
          bs[k]? = some emit_return_block) :=
  claim_C1_control_flow_lowering "label L1\ngoto L1\nif-goto L1\nfunction Main.fn 2\nreturn\n"
    "Prog"
    [Instruction.Label "L1", Instruction.Goto "L1", Instruction.IfGoto "L1",
     Instruction.Function "Main.fn" 2, Instruction.Return] (by rfl)

/-- Claim C2 (code bug): the spec requires `push pointer 2` to be rejected
with a range diagnostic, but `push_instruction` performs no pointer-range
check — the program parses successfully and even compiles, addressing the
THAT register. -/
theorem claim_C2_push_pointer_two_accepted :
    parse "push pointer 2\n" = .ok [Instruction.Push Segment.Pointer 2] ∧
    compile "Prog" "push pointer 2\n" =
      .ok (some ("@THAT\nD=M\n" ++ emit_push_d_to_stack)) := by
  exact ⟨rfl, rfl⟩

/-- Claim C3: on every instruction sequence returned by a successful parse and
for every program name, emit is total — the sequence contains no `Ignored`
and no `Pop` into `Constant` (the two panic branches are unreachable), and
emit returns an assembly string. -/
theorem claim_C3_emit_total_on_validator_output (source program_name : String)
    (instrs : List Instruction) (h : parse source = .ok instrs) :
    Instruction.Ignored ∉ instrs ∧
    (∀ n, Instruction.Pop Segment.Constant n ∉ instrs) ∧
    ∃ out, emit program_name instrs = some out := by
  refine ⟨parse_no_ignored source instrs h, ?_, ?_⟩
  · intro n hmem
    exact parse_no_pop_constant source instrs h _ hmem n rfl
  · obtain ⟨bs, _, hemit, _, _⟩ := emit_on_parse program_name source instrs h
    exact ⟨_, hemit⟩

/-- Witness for C3 at the program `push constant 10 / pop local 0 / add`. -/
theorem claim_C3_emit_total_on_validator_output_witness :
    Instruction.Ignored ∉
      [Instruction.Push Segment.Constant 10, Instruction.Pop Segment.Local 0,
       Instruction.Arithmetic ArithInstruction.Add] ∧
    (∀ n, Instruction.Pop Segment.Constant n ∉
      [Instruction.Push Segment.Constant 10, Instruction.Pop Segment.Local 0,
       Instruction.Arithmetic ArithInstruction.Add]) ∧
    ∃ out, emit "Prog"
      [Instruction.Push Segment.Constant 10, Instruction.Pop Segment.Local 0,
       Instruction.Arithmetic ArithInstruction.Add] = some out :=
  claim_C3_emit_total_on_validator_output "push constant 10\npop local 0\nadd\n" "Prog"
    [Instruction.Push Segment.Constant 10, Instruction.Pop Segment.Local 0,
     Instruction.Arithmetic ArithInstruction.Add] (by rfl)

/-- Claim C6: a successfully parsed program with k comparison instructions
yields k comparison call sites whose emission indices strictly increase, whose
operator names lie in EQ/GT/LT, whose generated jump-target symbol pairs
`<OP>_<i>` / `NOT_<OP>_<i>` are pairwise distinct, and each call site's block
in the emitted text is the comparison lowering at its own index. -/
theorem claim_C6_comparison_symbols_unique (source program_name : String)
    (instrs : List Instruction) (h : parse source = .ok instrs) :
    (comparisonCalls 0 instrs).length = comparisonCount instrs ∧
    (comparisonCalls 0 instrs).Pairwise (fun a b => a.1 < b.1) ∧
    (∀ x ∈ comparisonCalls 0 instrs, x.2 = "EQ" ∨ x.2 = "GT" ∨ x.2 = "LT") ∧
    ((comparisonCalls 0 instrs).map comparisonSymbolPair).Nodup ∧
    ∃ bs, emit program_name instrs = some (String.intercalate "\n" bs) ∧
      ∀ x ∈ comparisonCalls 0 instrs, bs[x.1]? = some (emit_comparison x.1 x.2) := by
  refine ⟨comparisonCalls_length instrs 0, comparisonCalls_pairwise instrs 0,
    fun x hx => comparisonCalls_op_mem instrs 0 x hx, ?_, ?_⟩
  · show (List.map comparisonSymbolPair (comparisonCalls 0 instrs)).Pairwise (fun a b => a ≠ b)
    rw [List.pairwise_map]
    apply List.Pairwise.imp_of_mem ?_ (comparisonCalls_pairwise instrs 0)
    intro a b ha hb hlt
    exact comparisonSymbolPair_ne a b (comparisonCalls_op_mem instrs 0 a ha)
      (comparisonCalls_op_mem instrs 0 b hb) (by omega)
  · obtain ⟨bs, hbs, hemit, hlen, hpt⟩ := emit_on_parse program_name source instrs h
    refine ⟨bs, hemit, fun x hx => ?_⟩
    obtain ⟨k, a, hk, hg, ho⟩ := comparisonCalls_get instrs 0 x hx
    have hx1 : x.1 = k := by omega
    rw [hx1, hpt k _ hg]
    rw [← hx1, hx1]
    exact emit_instruction_comparison program_name k a x.2 ho

/-- Witness for C6 at the program `eq / eq`. -/
theorem claim_C6_comparison_symbols_unique_witness :
    (comparisonCalls 0 [Instruction.Arithmetic ArithInstruction.Eq,
        Instruction.Arithmetic ArithInstruction.Eq]).length =
      comparisonCount [Instruction.Arithmetic ArithInstruction.Eq,
        Instruction.Arithmetic ArithInstruction.Eq] ∧
    (comparisonCalls 0 [Instruction.Arithmetic ArithInstruction.Eq,
        Instruction.Arithmetic ArithInstruction.Eq]).Pairwise (fun a b => a.1 < b.1) ∧
    (∀ x ∈ comparisonCalls 0 [Instruction.Arithmetic ArithInstruction.Eq,
        Instruction.Arithmetic ArithInstruction.Eq],
      x.2 = "EQ" ∨ x.2 = "GT" ∨ x.2 = "LT") ∧
    ((comparisonCalls 0 [Instruction.Arithmetic ArithInstruction.Eq,
        Instruction.Arithmetic ArithInstruction.Eq]).map comparisonSymbolPair).Nodup ∧
    ∃ bs, emit "Prog" [Instruction.Arithmetic ArithInstruction.Eq,
        Instruction.Arithmetic ArithInstruction.Eq] =
      some (String.intercalate "\n" bs) ∧
      ∀ x ∈ comparisonCalls 0 [Instruction.Arithmetic ArithInstruction.Eq,
          Instruction.Arithmetic ArithInstruction.Eq],
        bs[x.1]? = some (emit_comparison x.1 x.2) :=
  claim_C6_comparison_symbols_unique "eq\neq\n" "Prog"
    [Instruction.Arithmetic ArithInstruction.Eq, Instruction.Arithmetic ArithInstruction.Eq]
    (by rfl)

/-- Claim C9: in every validated program, a Push/Pop on Static, Temp or
Pointer lowers to a block addressing exactly the wire-contract symbols —
Static offset n addresses `<programName>.<n>`, Temp offset n addresses the
fixed base 5 plus n, and Pointer offsets 0 and 1 address the THIS and THAT
registers respectively. -/
theorem claim_C9_segment_symbol_addressing (source program_name : String)
    (instrs : List Instruction) (h : parse source = .ok instrs) :
    ∃ bs, emit program_name instrs = some (String.intercalate "\n" bs) ∧
      bs.length = instrs.length ∧
      ∀ k : Nat,
        (∀ n, instrs[k]? = some (Instruction.Push Segment.Static n) →
          bs[k]? = some ("@" ++ program_name ++ "." ++ Nat.repr n ++ "\nD=M\n"
            ++ emit_push_d_to_stack)) ∧
        (∀ n, instrs[k]? = some (Instruction.Pop Segment.Static n) →
          bs[k]? = some (emit_pop_stack_to_d ++ "\n@" ++ program_name ++ "."
            ++ Nat.repr n ++ "\nM=D")) ∧
        (∀ n, instrs[k]? = some (Instruction.Push Segment.Temp n) →
          bs[k]? = some ("@5\nD=A\n@" ++ Nat.repr n ++ "\nD=D+A\nA=D\nD=M\n"
            ++ emit_push_d_to_stack)) ∧
        (∀ n, instrs[k]? = some (Instruction.Pop Segment.Temp n) →
          bs[k]? = some ("@5\nD=A\n@" ++ Nat.repr n
            ++ "\nD=D+A\n@SP\nM=M-1\nA=M\nD=D+M\n@SP\nA=M\nA=D-M\nM=D-A")) ∧
        (instrs[k]? = some (Instruction.Push Segment.Pointer 0) →
          bs[k]? = some ("@THIS\nD=M\n" ++ emit_push_d_to_stack)) ∧
        (instrs[k]? = some (Instruction.Push Segment.Pointer 1) →
          bs[k]? = some ("@THAT\nD=M\n" ++ emit_push_d_to_stack)) ∧
        (instrs[k]? = some (Instruction.Pop Segment.Pointer 0) →
          bs[k]? = some ("@SP\nM=M-1\nA=M\nD=M\n@THIS\nM=D")) ∧
        (instrs[k]? = some (Instruction.Pop Segment.Pointer 1) →
          bs[k]? = some ("@SP\nM=M-1\nA=M\nD=M\n@THAT\nM=D")) := by
  obtain ⟨bs, hbs, hemit, hlen, hpt⟩ := emit_on_parse program_name source instrs h
  refine ⟨bs, hemit, hlen, fun k => ⟨?_, ?_, ?_, ?_, ?_, ?_, ?_, ?_⟩⟩
  · intro n hk
    rw [hpt k _ hk]
    rfl
  · intro n hk
    rw [hpt k _ hk]
    rfl
  · intro n hk
    rw [hpt k _ hk]
    rfl
  · intro n hk
    rw [hpt k _ hk]
    rfl
  · intro hk
    rw [hpt k _ hk]
    rfl
  · intro hk
    rw [hpt k _ hk]
    rfl
  · intro hk
    rw [hpt k _ hk]
    rfl
  · intro hk
    rw [hpt k _ hk]
    rfl

/-- Witness for C9 at a program exercising all six static/temp/pointer
shapes. -/
theorem claim_C9_segment_symbol_addressing_witness :
    ∃ bs, emit "Prog"
        [Instruction.Push Segment.Static 3, Instruction.Pop Segment.Static 4,
         Instruction.Push Segment.Temp 2, Instruction.Pop Segment.Temp 6,
         Instruction.Push Segment.Pointer 0, Instruction.Pop Segment.Pointer 1] =
      some (String.intercalate "\n" bs) ∧
      bs.length = 6 ∧
      ∀ k : Nat,
        (∀ n, [Instruction.Push Segment.Static 3, Instruction.Pop Segment.Static 4,
            Instruction.Push Segment.Temp 2, Instruction.Pop Segment.Temp 6,
            Instruction.Push Segment.Pointer 0, Instruction.Pop Segment.Pointer 1][k]? =
              some (Instruction.Push Segment.Static n) →
          bs[k]? = some ("@" ++ "Prog" ++ "." ++ Nat.repr n ++ "\nD=M\n"
            ++ emit_push_d_to_stack)) ∧
        (∀ n, [Instruction.Push Segment.Static 3, Instruction.Pop Segment.Static 4,
            Instruction.Push Segment.Temp 2, Instruction.Pop Segment.Temp 6,
            Instruction.Push Segment.Pointer 0, Instruction.Pop Segment.Pointer 1][k]? =
              some (Instruction.Pop Segment.Static n) →
          bs[k]? = some (emit_pop_stack_to_d ++ "\n@" ++ "Prog" ++ "."
            ++ Nat.repr n ++ "\nM=D")) ∧
        (∀ n, [Instruction.Push Segment.Static 3, Instruction.Pop Segment.Static 4,
            Instruction.Push Segment.Temp 2, Instruction.Pop Segment.Temp 6,
            Instruction.Push Segment.Pointer 0, Instruction.Pop Segment.Pointer 1][k]? =
              some (Instruction.Push Segment.Temp n) →
          bs[k]? = some ("@5\nD=A\n@" ++ Nat.repr n ++ "\nD=D+A\nA=D\nD=M\n"
            ++ emit_push_d_to_stack)) ∧
        (∀ n, [Instruction.Push Segment.Static 3, Instruction.Pop Segment.Static 4,
            Instruction.Push Segment.Temp 2, Instruction.Pop Segment.Temp 6,
            Instruction.Push Segment.Pointer 0, Instruction.Pop Segment.Pointer 1][k]? =
              some (Instruction.Pop Segment.Temp n) →
          bs[k]? = some ("@5\nD=A\n@" ++ Nat.repr n
            ++ "\nD=D+A\n@SP\nM=M-1\nA=M\nD=D+M\n@SP\nA=M\nA=D-M\nM=D-A")) ∧
        ([Instruction.Push Segment.Static 3, Instruction.Pop Segment.Static 4,
            Instruction.Push Segment.Temp 2, Instruction.Pop Segment.Temp 6,
            Instruction.Push Segment.Pointer 0, Instruction.Pop Segment.Pointer 1][k]? =
              some (Instruction.Push Segment.Pointer 0) →
          bs[k]? = some ("@THIS\nD=M\n" ++ emit_push_d_to_stack)) ∧
        ([Instruction.Push Segment.Static 3, Instruction.Pop Segment.Static 4,
            Instruction.Push Segment.Temp 2, Instruction.Pop Segment.Temp 6,
            Instruction.Push Segment.Pointer 0, Instruction.Pop Segment.Pointer 1][k]? =
              some (Instruction.Push Segment.Pointer 1) →
          bs[k]? = some ("@THAT\nD=M\n" ++ emit_push_d_to_stack)) ∧
        ([Instruction.Push Segment.Static 3, Instruction.Pop Segment.Static 4,
            Instruction.Push Segment.Temp 2, Instruction.Pop Segment.Temp 6,
            Instruction.Push Segment.Pointer 0, Instruction.Pop Segment.Pointer 1][k]? =
              some (Instruction.Pop Segment.Pointer 0) →
          bs[k]? = some ("@SP\nM=M-1\nA=M\nD=M\n@THIS\nM=D")) ∧
        ([Instruction.Push Segment.Static 3, Instruction.Pop Segment.Static 4,
            Instruction.Push Segment.Temp 2, Instruction.Pop Segment.Temp 6,
            Instruction.Push Segment.Pointer 0, Instruction.Pop Segment.Pointer 1][k]? =
              some (Instruction.Pop Segment.Pointer 1) →
          bs[k]? = some ("@SP\nM=M-1\nA=M\nD=M\n@THAT\nM=D")) :=
  claim_C9_segment_symbol_addressing
    "push static 3\npop static 4\npush temp 2\npop temp 6\npush pointer 0\npop pointer 1\n"
    "Prog"
    [Instruction.Push Segment.Static 3, Instruction.Pop Segment.Static 4,
     Instruction.Push Segment.Temp 2, Instruction.Pop Segment.Temp 6,
     Instruction.Push Segment.Pointer 0, Instruction.Pop Segment.Pointer 1] (by rfl)

/-- Shared helper: when every used label name has a declaration somewhere in
the program, the whole-program pass raises no diagnostic and parse returns
the filtered instruction sequence. -/
theorem parse_ok_of_all_used_defined (source : String) (instrs0 : List Instruction)
    (st : State) (hrun : runSource source = .ok (instrs0, st))
    (hdef : ∀ u ∈ st.usedLabels, u.value ∈ st.definedLabels.map (fun l => l.value)) :
    parse source = .ok (instrs0.filter (fun i => !(i == Instruction.Ignored))) := by
  apply parse_ok_of_run source instrs0 st hrun
  rw [labelDifference_eq_undef]
  rw [List.filter_eq_nil_iff]
  intro u hu
  simp [hdef u hu]

/-- Claim C4: when the line pass succeeds but some used label has no
declaration, parse fails with the undefined-usage diagnostics — exactly one
per usage site of an undefined name (the filter of the used-label occurrence
set), each citing the usage's span and its name, sorted by source row and
joined by blank lines. -/
theorem claim_C4_undefined_label_diagnostics (source : String)
    (instrs0 : List Instruction) (st : State)
    (hrun : runSource source = .ok (instrs0, st))
    (hundef : ∃ u ∈ st.usedLabels,
      u.value ∉ st.definedLabels.map (fun l => l.value)) :
    parse source = .error (String.intercalate "\n\n"
      ((sortByRow (labelDifference st)).map
        (fun l => displayError source (undefinedLabelMessage l.value) l.frm l.toL))) ∧
    labelDifference st =
      st.usedLabels.filter
        (fun u => !((st.definedLabels.map (fun l => l.value)).contains u.value)) ∧
    (sortByRow (labelDifference st)).Perm (labelDifference st) ∧
    (sortByRow (labelDifference st)).Pairwise (fun a b => a.frm.row ≤ b.frm.row) := by
  obtain ⟨u, hu, hnd⟩ := hundef
  have hne : labelDifference st ≠ [] := by
    rw [labelDifference_eq_undef]
    apply List.ne_nil_of_mem (a := u)
    rw [List.mem_filter]
    exact ⟨hu, by simp [hnd]⟩
  exact ⟨parse_error_of_run source instrs0 st hrun hne, labelDifference_eq_undef st,
    sortByRow_perm _, sortByRow_pairwise _⟩

/-- Witness for C4 at the program `goto MISSING`. -/
theorem claim_C4_undefined_label_diagnostics_witness :
    parse "goto MISSING\n" = .error (String.intercalate "\n\n"
      ((sortByRow (labelDifference ⟨[], [⟨⟨1, 6⟩, ⟨1, 13⟩, "MISSING"⟩]⟩)).map
        (fun l => displayError "goto MISSING\n" (undefinedLabelMessage l.value) l.frm l.toL))) ∧
    labelDifference ⟨[], [⟨⟨1, 6⟩, ⟨1, 13⟩, "MISSING"⟩]⟩ =
      ([⟨⟨1, 6⟩, ⟨1, 13⟩, "MISSING"⟩] : List VMLocatedString).filter
        (fun u => !((([] : List VMLocatedString).map (fun l => l.value)).contains u.value)) ∧
    (sortByRow (labelDifference ⟨[], [⟨⟨1, 6⟩, ⟨1, 13⟩, "MISSING"⟩]⟩)).Perm
      (labelDifference ⟨[], [⟨⟨1, 6⟩, ⟨1, 13⟩, "MISSING"⟩]⟩) ∧
    (sortByRow (labelDifference ⟨[], [⟨⟨1, 6⟩, ⟨1, 13⟩, "MISSING"⟩]⟩)).Pairwise
      (fun a b => a.frm.row ≤ b.frm.row) :=
  claim_C4_undefined_label_diagnostics "goto MISSING\n" [Instruction.Goto "MISSING"]
    ⟨[], [⟨⟨1, 6⟩, ⟨1, 13⟩, "MISSING"⟩]⟩ (by rfl) (by decide)

/-- Claim C5: when every label name referenced by goto or if-goto has a
declaration somewhere in the file — before or after the reference — the
whole-program label pass raises no diagnostic and parse succeeds. -/
theorem claim_C5_forward_references_legal (source : String)
    (instrs0 : List Instruction) (st : State)
    (hrun : runSource source = .ok (instrs0, st))
    (hdef : ∀ u ∈ st.usedLabels, u.value ∈ st.definedLabels.map (fun l => l.value)) :
    parse source = .ok (instrs0.filter (fun i => !(i == Instruction.Ignored))) :=
  parse_ok_of_all_used_defined source instrs0 st hrun hdef

/-- Witness for C5 at the forward-referencing program `goto AHEAD /
label AHEAD`. -/
theorem claim_C5_forward_references_legal_witness :
    parse "goto AHEAD\nlabel AHEAD\n" =
      .ok (([Instruction.Goto "AHEAD", Instruction.Label "AHEAD"]).filter
        (fun i => !(i == Instruction.Ignored))) :=
  claim_C5_forward_references_legal "goto AHEAD\nlabel AHEAD\n"
    [Instruction.Goto "AHEAD", Instruction.Label "AHEAD"]
    ⟨[⟨⟨2, 7⟩, ⟨2, 12⟩, "AHEAD"⟩], [⟨⟨1, 6⟩, ⟨1, 11⟩, "AHEAD"⟩]⟩
    (by rfl) (by decide)

/-- Claim C10: parse never reports a declared-but-unused label — when the
line pass succeeds and every referenced name is declared, parse succeeds even
though some declared label is never referenced by any goto or if-goto. -/
theorem claim_C10_unused_labels_silently_accepted (source : String)
    (instrs0 : List Instruction) (st : State)
    (hrun : runSource source = .ok (instrs0, st))
    (hdef : ∀ u ∈ st.usedLabels, u.value ∈ st.definedLabels.map (fun l => l.value))
    (_hunused : ∃ d ∈ st.definedLabels,
      d.value ∉ st.usedLabels.map (fun l => l.value)) :
    parse source = .ok (instrs0.filter (fun i => !(i == Instruction.Ignored))) :=
  parse_ok_of_all_used_defined source instrs0 st hrun hdef

/-- Witness for C10 at the program `label EXTRA / goto DEST / label DEST`,
whose label EXTRA is never referenced. -/
theorem claim_C10_unused_labels_silently_accepted_witness :
    parse "label EXTRA\ngoto DEST\nlabel DEST\n" =
      .ok (([Instruction.Label "EXTRA", Instruction.Goto "DEST", Instruction.Label "DEST"]).filter
        (fun i => !(i == Instruction.Ignored))) :=
  claim_C10_unused_labels_silently_accepted "label EXTRA\ngoto DEST\nlabel DEST\n"
    [Instruction.Label "EXTRA", Instruction.Goto "DEST", Instruction.Label "DEST"]
    ⟨[⟨⟨3, 7⟩, ⟨3, 11⟩, "DEST"⟩, ⟨⟨1, 7⟩, ⟨1, 12⟩, "EXTRA"⟩],
     [⟨⟨2, 6⟩, ⟨2, 10⟩, "DEST"⟩]⟩
    (by rfl) (by decide) (by decide)

/-! Helper lemmas: rejection of specific line shapes. -/

theorem isDigit_ne_space (c : Char) (h : c.isDigit = true) : ¬ c = ' ' := by
  intro he
  rw [he] at h
  exact absurd h (by decide)

theorem isAlpha_ne_space (c : Char) (h : c.isAlpha = true) : ¬ c = ' ' := by
  intro he
  rw [he] at h
  exact absurd h (by decide)

theorem parse_error_of_bad_line (source : String) (row : Nat) (line : List Char)
    (hline : lineAt source row = some line)
    (hbad : ∀ r st, ∃ e, parseLineInstr r line st = .error e) :
    ∃ e, parse source = .error e := by
  cases hp : parse source with
  | error e => exact ⟨e, rfl⟩
  | ok instrs =>
    obtain ⟨instrs0, st, hrun, -, -⟩ := parse_ok_shape source instrs hp
    have hl : line ∈ linesOf (source.data.length + 1) source.data :=
      List.getElem?_mem hline
    obtain ⟨r, s, p, hok⟩ := runLines_ok_lines (source.data.length + 1)
      (source.data.length + 1) source.data 1 ⟨[], []⟩ [] (instrs0, st)
      (by omega) hrun line hl
    obtain ⟨e, he⟩ := hbad r s
    rw [hok] at he
    exact absurd he (by simp)

theorem parseLine_pop_constant (row s1 s2 : Nat) (ds rest : List Char) (st : State)
    (hs1 : 1 ≤ s1) (hs2 : 1 ≤ s2) (hds : ds ≠ [])
    (hdig : ∀ c ∈ ds, c.isDigit = true)
    (hrest : ∀ c cs, rest = c :: cs → c.isDigit = false) :
    parseLineInstr row
      ("pop".data ++ (List.replicate s1 ' ' ++ ("constant".data ++ (List.replicate s2 ' ' ++ (ds ++ rest))))) st
    = .error ⟨popConstantMessage (digitsToNat ds), ⟨row, 1⟩,
        ⟨row, 12 + s1 + s2 + ds.length⟩⟩ := by
  obtain ⟨d, ds2, rfl⟩ : ∃ d ds2, ds = d :: ds2 := by
    cases ds with
    | nil => exact absurd rfl hds
    | cons d ds2 => exact ⟨d, ds2, rfl⟩
  have h1 : dropLit "push".data
      ("pop".data ++ (List.replicate s1 ' ' ++ ("constant".data ++ (List.replicate s2 ' ' ++ ((d :: ds2) ++ rest))))) = none := rfl
  have h2 := dropLit_append "pop".data
    (List.replicate s1 ' ' ++ ("constant".data ++ (List.replicate s2 ' ' ++ ((d :: ds2) ++ rest))))
  unfold parseLineInstr
  simp only [h1, h2]
  unfold popRest
  have hsp : countSpaces (List.replicate s1 ' '
      ++ ("constant".data ++ (List.replicate s2 ' ' ++ ((d :: ds2) ++ rest))))
      = (s1, "constant".data ++ (List.replicate s2 ' ' ++ ((d :: ds2) ++ rest))) := by
    apply countSpaces_replicate
    intro c cs hc
    have hc2 : 'c' :: ("onstant".data ++ (List.replicate s2 ' ' ++ ((d :: ds2) ++ rest)))
        = c :: cs := hc
    injection hc2 with hc3 hc4
    rw [← hc3]
    decide
  have hseg : takeSegment ("constant".data ++ (List.replicate s2 ' ' ++ ((d :: ds2) ++ rest)))
      = some (Segment.Constant, 8, List.replicate s2 ' ' ++ ((d :: ds2) ++ rest)) := by
    have e1 : dropLit "local".data ("constant".data ++ (List.replicate s2 ' ' ++ ((d :: ds2) ++ rest))) = none := rfl
    have e2 : dropLit "argument".data ("constant".data ++ (List.replicate s2 ' ' ++ ((d :: ds2) ++ rest))) = none := rfl
    have e3 : dropLit "this".data ("constant".data ++ (List.replicate s2 ' ' ++ ((d :: ds2) ++ rest))) = none := rfl
    have e4 : dropLit "that".data ("constant".data ++ (List.replicate s2 ' ' ++ ((d :: ds2) ++ rest))) = none := rfl
    have e5 := dropLit_append "constant".data (List.replicate s2 ' ' ++ ((d :: ds2) ++ rest))
    unfold takeSegment
    simp only [e1, e2, e3, e4, e5]
  have hsp2 : countSpaces (List.replicate s2 ' ' ++ ((d :: ds2) ++ rest))
      = (s2, (d :: ds2) ++ rest) := by
    apply countSpaces_replicate
    intro c cs hc
    have hc2 : d :: (ds2 ++ rest) = c :: cs := hc
    injection hc2 with hc3 hc4
    rw [← hc3]
    exact isDigit_ne_space d (hdig d (by simp))
  have hdg : takeDigits ((d :: ds2) ++ rest) = (d :: ds2, rest) :=
    takeDigits_append (d :: ds2) rest hdig hrest
  simp only [hsp, hseg, hsp2, hdg]
  rw [if_neg (by omega), if_neg (by omega)]
  simp only [List.isEmpty_cons, Bool.false_eq_true, if_false]
  have harith : 4 + s1 + 8 + s2 + (d :: ds2).length = 12 + s1 + s2 + (d :: ds2).length := by
    omega
  rw [harith]

theorem parseLine_duplicate_label (row s1 : Nat) (c : Char) (body rest : List Char)
    (st : State) (hs1 : 1 ≤ s1) (hc : c.isAlpha = true)
    (hbody : ∀ d ∈ body, isLabelChar d = true)
    (hrest : ∀ d ds2, rest = d :: ds2 → isLabelChar d = false)
    (hdup : String.mk (c :: body) ∈ st.definedLabels.map (fun l => l.value)) :
    parseLineInstr row ("label".data ++ (List.replicate s1 ' ' ++ (c :: (body ++ rest)))) st
      = .error ⟨duplicateLabelMessage (String.mk (c :: body)),
          ⟨row, 6 + s1⟩, ⟨row, 6 + s1 + (String.mk (c :: body)).length⟩⟩ := by
  have h1 : dropLit "push".data
      ("label".data ++ (List.replicate s1 ' ' ++ (c :: (body ++ rest)))) = none := rfl
  have h2 : dropLit "pop".data
      ("label".data ++ (List.replicate s1 ' ' ++ (c :: (body ++ rest)))) = none := rfl
  have h3 : takeArith
      ("label".data ++ (List.replicate s1 ' ' ++ (c :: (body ++ rest)))) = none := rfl
  have h4 := dropLit_append "label".data (List.replicate s1 ' ' ++ (c :: (body ++ rest)))
  unfold parseLineInstr
  simp only [h1, h2, h3, h4]
  unfold labelRest
  have hsp : countSpaces (List.replicate s1 ' ' ++ (c :: (body ++ rest)))
      = (s1, c :: (body ++ rest)) := by
    apply countSpaces_replicate
    intro e es he
    injection he with he1 he2
    rw [← he1]
    exact isAlpha_ne_space c hc
  have hbd : takeLabelBody (body ++ rest) = (body, rest) :=
    takeLabelBody_append body rest hbody hrest
  have hcont : ((st.definedLabels.map (fun l => l.value)).contains (String.mk (c :: body)))
      = true := by
    simpa using hdup
  simp only [hsp, hbd, hc, if_true, hcont]
  rw [if_neg (by omega)]
  have harith : 6 + s1 + (String.mk (c :: body)).length - (String.mk (c :: body)).length
      = 6 + s1 := by
    omega
  rw [harith]

theorem parseLine_duplicate_function (row s1 s2 : Nat) (c : Char)
    (body ds rest : List Char) (st : State)
    (hs1 : 1 ≤ s1) (hs2 : 1 ≤ s2) (hc : c.isAlpha = true)
    (hbody : ∀ d ∈ body, isLabelChar d = true)
    (hds : ds ≠ []) (hdig : ∀ d ∈ ds, d.isDigit = true)
    (hrest : ∀ d ds2, rest = d :: ds2 → d.isDigit = false)
    (hdup : String.mk (c :: body) ∈ st.definedLabels.map (fun l => l.value)) :
    parseLineInstr row
      ("function".data ++ (List.replicate s1 ' '
        ++ (c :: (body ++ (List.replicate s2 ' ' ++ (ds ++ rest)))))) st
      = .error ⟨duplicateLabelMessage (String.mk (c :: body)),
          ⟨row, 9 + s1 + s2 + ds.length⟩,
          ⟨row, 9 + s1 + (String.mk (c :: body)).length + s2 + ds.length⟩⟩ := by
  obtain ⟨d0, ds2, rfl⟩ : ∃ d0 ds2, ds = d0 :: ds2 := by
    cases ds with
    | nil => exact absurd rfl hds
    | cons d0 ds2 => exact ⟨d0, ds2, rfl⟩
  obtain ⟨s2p, rfl⟩ : ∃ s2p, s2 = s2p + 1 := by
    cases s2 with
    | zero => omega
    | succ s2p => exact ⟨s2p, rfl⟩
  have h1 : dropLit "push".data
      ("function".data ++ (List.replicate s1 ' '
        ++ (c :: (body ++ (List.replicate (s2p + 1) ' ' ++ ((d0 :: ds2) ++ rest)))))) = none := rfl
  have h2 : dropLit "pop".data
      ("function".data ++ (List.replicate s1 ' '
        ++ (c :: (body ++ (List.replicate (s2p + 1) ' ' ++ ((d0 :: ds2) ++ rest)))))) = none := rfl
  have h3 : takeArith
      ("function".data ++ (List.replicate s1 ' '
        ++ (c :: (body ++ (List.replicate (s2p + 1) ' ' ++ ((d0 :: ds2) ++ rest)))))) = none := rfl
  have h4 : dropLit "label".data
      ("function".data ++ (List.replicate s1 ' '
        ++ (c :: (body ++ (List.replicate (s2p + 1) ' ' ++ ((d0 :: ds2) ++ rest)))))) = none := rfl
  have h5 : dropLit "goto".data
      ("function".data ++ (List.replicate s1 ' '
        ++ (c :: (body ++ (List.replicate (s2p + 1) ' ' ++ ((d0 :: ds2) ++ rest)))))) = none := rfl
  have h6 : dropLit "if-goto".data
      ("function".data ++ (List.replicate s1 ' '
        ++ (c :: (body ++ (List.replicate (s2p + 1) ' ' ++ ((d0 :: ds2) ++ rest)))))) = none := rfl
  have h7 := dropLit_append "function".data
    (List.replicate s1 ' ' ++ (c :: (body ++ (List.replicate (s2p + 1) ' ' ++ ((d0 :: ds2) ++ rest)))))
  unfold parseLineInstr
  simp only [h1, h2, h3, h4, h5, h6, h7]
  unfold functionRest
  have hsp : countSpaces (List.replicate s1 ' '
      ++ (c :: (body ++ (List.replicate (s2p + 1) ' ' ++ ((d0 :: ds2) ++ rest)))))
      = (s1, c :: (body ++ (List.replicate (s2p + 1) ' ' ++ ((d0 :: ds2) ++ rest)))) := by
    apply countSpaces_replicate
    intro e es he
    injection he with he1 he2
    rw [← he1]
    exact isAlpha_ne_space c hc
  have hbd : takeLabelBody (body ++ (List.replicate (s2p + 1) ' ' ++ ((d0 :: ds2) ++ rest)))
      = (body, List.replicate (s2p + 1) ' ' ++ ((d0 :: ds2) ++ rest)) := by
    apply takeLabelBody_append body _ hbody
    intro e es he
    have he2 : ' ' :: (List.replicate s2p ' ' ++ ((d0 :: ds2) ++ rest)) = e :: es := he
    injection he2 with he3 he4
    rw [← he3]
    decide
  have hsp2 : countSpaces (List.replicate (s2p + 1) ' ' ++ ((d0 :: ds2) ++ rest))
      = (s2p + 1, (d0 :: ds2) ++ rest) := by
    apply countSpaces_replicate
    intro e es he
    have he2 : d0 :: (ds2 ++ rest) = e :: es := he
    injection he2 with he3 he4
    rw [← he3]
    exact isDigit_ne_space d0 (hdig d0 (by simp))
  have hdg : takeDigits ((d0 :: ds2) ++ rest) = (d0 :: ds2, rest) :=
    takeDigits_append (d0 :: ds2) rest hdig hrest
  have hcont : ((st.definedLabels.map (fun l => l.value)).contains (String.mk (c :: body)))
      = true := by
    simpa using hdup
  simp only [hsp, hbd, hsp2, hdg, hc, if_true, hcont]
  rw [if_neg (by omega), if_neg (by omega)]
  simp only [List.isEmpty_cons, Bool.false_eq_true, if_false, if_true]
  have harith : 9 + s1 + (String.mk (c :: body)).length + (s2p + 1) + (d0 :: ds2).length
      - (String.mk (c :: body)).length = 9 + s1 + (s2p + 1) + (d0 :: ds2).length := by
    omega
  rw [harith]

/-- Claim C7: a source line `pop constant <n>` is rejected — whenever any line
of the source has that shape, parse fails, and the line itself (at any row,
under any validation state) produces exactly the popped-into-constant
diagnostic spanning from column 1. -/
theorem claim_C7_pop_constant_always_rejected (source : String) (row s1 s2 : Nat)
    (ds rest : List Char)
    (hline : lineAt source row = some ("pop".data ++ (List.replicate s1 ' '
      ++ ("constant".data ++ (List.replicate s2 ' ' ++ (ds ++ rest))))))
    (hs1 : 1 ≤ s1) (hs2 : 1 ≤ s2) (hds : ds ≠ [])
    (hdig : ∀ c ∈ ds, c.isDigit = true)
    (hrest : ∀ c cs, rest = c :: cs → c.isDigit = false) :
    (∃ e, parse source = .error e) ∧
    ∀ r st, parseLineInstr r ("pop".data ++ (List.replicate s1 ' '
        ++ ("constant".data ++ (List.replicate s2 ' ' ++ (ds ++ rest))))) st
      = .error ⟨popConstantMessage (digitsToNat ds), ⟨r, 1⟩,
          ⟨r, 12 + s1 + s2 + ds.length⟩⟩ := by
  constructor
  · exact parse_error_of_bad_line source row _ hline
      (fun r st => ⟨_, parseLine_pop_constant r s1 s2 ds rest st hs1 hs2 hds hdig hrest⟩)
  · intro r st
    exact parseLine_pop_constant r s1 s2 ds rest st hs1 hs2 hds hdig hrest

/-- Witness for C7 at the source `pop constant 5`. -/
theorem claim_C7_pop_constant_always_rejected_witness :
    (∃ e, parse "pop constant 5\n" = .error e) ∧
    ∀ r st, parseLineInstr r ("pop".data ++ (List.replicate 1 ' '
        ++ ("constant".data ++ (List.replicate 1 ' ' ++ (['5'] ++ ([] : List Char)))))) st
      = .error ⟨popConstantMessage (digitsToNat ['5']), ⟨r, 1⟩,
          ⟨r, 12 + 1 + 1 + (['5'] : List Char).length⟩⟩ :=
  claim_C7_pop_constant_always_rejected "pop constant 5\n" 1 1 1 ['5'] []
    (by rfl) (by omega) (by omega) (by simp) (by decide)
    (by intro c cs h; exact absurd h (by simp))

/-- Claim C8: a `label` or `function` declaring a name already declared
earlier is rejected at the second declaration site with the duplicate-name
diagnostic; in particular `label L\nlabel L\n` fails citing the second
`label L` line. -/
theorem claim_C8_duplicate_declaration_rejected :
    (∀ (row s1 : Nat) (c : Char) (body rest : List Char) (st : State),
      1 ≤ s1 → c.isAlpha = true → (∀ d ∈ body, isLabelChar d = true) →
      (∀ d ds2, rest = d :: ds2 → isLabelChar d = false) →
      String.mk (c :: body) ∈ st.definedLabels.map (fun l => l.value) →
      parseLineInstr row ("label".data ++ (List.replicate s1 ' ' ++ (c :: (body ++ rest)))) st
        = .error ⟨duplicateLabelMessage (String.mk (c :: body)),
            ⟨row, 6 + s1⟩, ⟨row, 6 + s1 + (String.mk (c :: body)).length⟩⟩) ∧
    (∀ (row s1 s2 : Nat) (c : Char) (body ds rest : List Char) (st : State),
      1 ≤ s1 → 1 ≤ s2 → c.isAlpha = true → (∀ d ∈ body, isLabelChar d = true) →
      ds ≠ [] → (∀ d ∈ ds, d.isDigit = true) →
      (∀ d ds2, rest = d :: ds2 → d.isDigit = false) →
      String.mk (c :: body) ∈ st.definedLabels.map (fun l => l.value) →
      parseLineInstr row ("function".data ++ (List.replicate s1 ' '
          ++ (c :: (body ++ (List.replicate s2 ' ' ++ (ds ++ rest)))))) st
        = .error ⟨duplicateLabelMessage (String.mk (c :: body)),
            ⟨row, 9 + s1 + s2 + ds.length⟩,
            ⟨row, 9 + s1 + (String.mk (c :: body)).length + s2 + ds.length⟩⟩) ∧
    parse "label L\nlabel L\n"
      = .error (displayError "label L\nlabel L\n" (duplicateLabelMessage "L") ⟨2, 7⟩ ⟨2, 8⟩) := by
  refine ⟨?_, ?_, ?_⟩
  · intro row s1 c body rest st hs1 hc hbody hrest hdup
    exact parseLine_duplicate_label row s1 c body rest st hs1 hc hbody hrest hdup
  · intro row s1 s2 c body ds rest st hs1 hs2 hc hbody hds hdig hrest hdup
    exact parseLine_duplicate_function row s1 s2 c body ds rest st hs1 hs2 hc hbody hds
      hdig hrest hdup
  · rfl

/-- Witness for C8: the second `label L` line of `label L\nlabel L\n`, parsed
under the state produced by the first line, yields the duplicate diagnostic at
row 2. -/
theorem claim_C8_duplicate_declaration_rejected_witness :
    parseLineInstr 2
        ("label".data ++ (List.replicate 1 ' ' ++ ('L' :: (([] : List Char) ++ ([] : List Char)))))
        ⟨[⟨⟨1, 7⟩, ⟨1, 8⟩, "L"⟩], []⟩
      = .error ⟨duplicateLabelMessage (String.mk ['L']), ⟨2, 7⟩, ⟨2, 8⟩⟩ ∧
    parse "label L\nlabel L\n"
      = .error (displayError "label L\nlabel L\n" (duplicateLabelMessage "L") ⟨2, 7⟩ ⟨2, 8⟩) :=
  ⟨claim_C8_duplicate_declaration_rejected.1 2 1 'L' [] [] ⟨[⟨⟨1, 7⟩, ⟨1, 8⟩, "L"⟩], []⟩
      (by omega) (by decide) (by simp) (by intro d ds2 h; exact absurd h (by simp))
      (by decide),
    claim_C8_duplicate_declaration_rejected.2.2⟩

end VMCompiler
